import Mathlib

/-!
Shallow embedding of the Accountability scoring engine
(backend/app/services: promise_service.py, influence_service.py,
red_flags_service.py, accountability_score_service.py).

Python floats are modelled by exact rationals (ℚ); Python dicts keyed by
industry are modelled by insertion-ordered association lists; Python's
stable `sort`/`sorted` is modelled by a stable insertion sort on a ℚ-valued
key; the nondeterministic `uuid.uuid4()` source of red-flag ids is modelled
by an explicit id supply `Nat → String` threaded into the detector.
-/

set_option maxRecDepth 20000

namespace Accountability

/-- Python `round(x, 1)`: round to one decimal place (ties are immaterial to
the properties proved here; we use round-half-up on ℚ). -/
def round1 (x : ℚ) : ℚ := (round (10 * x) : ℤ) / 10

/-- Char-list prefix test. -/
def startsWithChars : List Char → List Char → Bool
  | [], _ => true
  | _ :: _, [] => false
  | a :: as, b :: bs => a == b && startsWithChars as bs

/-- Char-list substring test: the needle starts at some position. -/
def hasSubChars (needle : List Char) : List Char → Bool
  | [] => startsWithChars needle []
  | b :: bs => startsWithChars needle (b :: bs) || hasSubChars needle bs

/-- Substring containment test on strings, as Python `needle in hay`. -/
def containsSub (needle hay : String) : Bool :=
  hasSubChars needle.toList hay.toList

/-- ASCII lower-casing of a string (Python `str.lower` on the data the
engine handles). -/
def toLowerStr (s : String) : String :=
  String.mk (s.toList.map Char.toLower)

/-! ### Stable sort on a rational-valued key

Python `list.sort(key=...)` / `sorted(..., key=...)` is a stable sort; we
embed it as a stable insertion sort.  Descending sorts (`reverse=True`)
are obtained by negating the key. -/

/-- Insert `x` after every element whose key is strictly smaller, so that
elements with equal keys keep their original relative order. -/
def keyInsert (f : α → ℚ) (x : α) : List α → List α
  | [] => [x]
  | y :: ys => if f y < f x then y :: keyInsert f x ys else x :: y :: ys

/-- Stable sort ascending by the key `f` (Python's stable `sort`). -/
def keySort (f : α → ℚ) : List α → List α
  | [] => []
  | x :: xs => keyInsert f x (keySort f xs)

theorem keyInsert_perm (f : α → ℚ) (x : α) (l : List α) :
    List.Perm (keyInsert f x l) (x :: l) := by
  induction l with
  | nil => simp [keyInsert]
  | cons y ys ih =>
      simp only [keyInsert]
      split
      · exact List.Perm.trans (List.Perm.cons y ih) (List.Perm.swap x y ys)
      · exact List.Perm.refl _

theorem keySort_perm (f : α → ℚ) (l : List α) :
    List.Perm (keySort f l) l := by
  induction l with
  | nil => simp [keySort]
  | cons x xs ih =>
      exact List.Perm.trans (keyInsert_perm f x (keySort f xs)) (List.Perm.cons x ih)

theorem keyInsert_pairwise (f : α → ℚ) (x : α) (l : List α)
    (h : l.Pairwise (fun a b => f a ≤ f b)) :
    (keyInsert f x l).Pairwise (fun a b => f a ≤ f b) := by
  induction l with
  | nil => simp [keyInsert]
  | cons y ys ih =>
      rcases List.pairwise_cons.mp h with ⟨hy, hys⟩
      simp only [keyInsert]
      split
      · rename_i hlt
        refine List.pairwise_cons.mpr ⟨?_, ih hys⟩
        intro b hb
        have hb2 : b ∈ x :: ys := (keyInsert_perm f x ys).mem_iff.mp hb
        rcases List.mem_cons.mp hb2 with rfl | hb3
        · exact le_of_lt hlt
        · exact hy b hb3
      · rename_i hnlt
        refine List.pairwise_cons.mpr ⟨?_, h⟩
        intro b hb
        rcases List.mem_cons.mp hb with rfl | hb3
        · exact le_of_not_lt hnlt
        · exact le_trans (le_of_not_lt hnlt) (hy b hb3)

theorem keySort_pairwise (f : α → ℚ) (l : List α) :
    (keySort f l).Pairwise (fun a b => f a ≤ f b) := by
  induction l with
  | nil => simp [keySort]
  | cons x xs ih => exact keyInsert_pairwise f x (keySort f xs) ih

theorem keyInsert_filter_of_key (f : α → ℚ) (k : ℚ) (p : α → Bool)
    (hp : ∀ a, p a = true ↔ f a = k) (x : α) (l : List α) :
    (keyInsert f x l).filter p =
      if p x then x :: l.filter p else l.filter p := by
  induction l with
  | nil => cases hx : p x <;> simp [keyInsert, List.filter, hx]
  | cons y ys ih =>
      simp only [keyInsert]
      split
      · rename_i hlt
        by_cases hx : p x = true
        · have hfx : f x = k := (hp x).mp hx
          have hpy : p y = false := by
            cases hc : p y with
            | false => rfl
            | true =>
                have h1 : f y = k := (hp y).mp hc
                have h2 : f y < f x := hlt
                rw [h1, hfx] at h2
                exact absurd h2 (lt_irrefl k)
          simp [List.filter_cons, hx, hpy, ih]
        · have hx2 : p x = false := Bool.eq_false_iff.mpr hx
          cases hc : p y with
          | false => simp [List.filter_cons, hx2, hc, ih]
          | true => simp [List.filter_cons, hx2, hc, ih]
      · cases hx : p x <;> simp [List.filter_cons, hx]

/-- Stability of the key sort: filtering out all elements with one fixed key
value commutes with sorting, i.e. equal-key elements keep their original
relative order. -/
theorem keySort_filter_of_key (f : α → ℚ) (k : ℚ) (p : α → Bool)
    (hp : ∀ a, p a = true ↔ f a = k) (l : List α) :
    (keySort f l).filter p = l.filter p := by
  induction l with
  | nil => simp [keySort]
  | cons x xs ih =>
      simp only [keySort, keyInsert_filter_of_key f k p hp, ih, List.filter_cons]

theorem keySort_countP (f : α → ℚ) (p : α → Bool) (l : List α) :
    (keySort f l).countP p = l.countP p :=
  (keySort_perm f l).countP_eq p

theorem keySort_length (f : α → ℚ) (l : List α) :
    (keySort f l).length = l.length :=
  (keySort_perm f l).length_eq

/-! ### Elementary facts about `round1` -/

theorem round_mono_rat {x y : ℚ} (h : x ≤ y) : round x ≤ round y := by
  rw [round_eq, round_eq]
  exact Int.floor_le_floor (by linarith)

theorem round1_mono {x y : ℚ} (h : x ≤ y) : round1 x ≤ round1 y := by
  unfold round1
  have h10 : (10 : ℚ) * x ≤ 10 * y := by linarith
  have hr := round_mono_rat h10
  have hcast : ((round (10 * x) : ℤ) : ℚ) ≤ ((round (10 * y) : ℤ) : ℚ) := by
    exact_mod_cast hr
  linarith

theorem round1_intCast (n : ℤ) : round1 ((n : ℚ)) = n := by
  unfold round1
  have : (10 : ℚ) * (n : ℚ) = ((10 * n : ℤ) : ℚ) := by push_cast; ring
  rw [this, round_intCast]
  push_cast
  ring

theorem round1_nonneg {x : ℚ} (h : 0 ≤ x) : 0 ≤ round1 x := by
  have := round1_mono h
  rw [show ((0 : ℚ)) = ((0 : ℤ) : ℚ) by norm_num, round1_intCast] at this
  simpa using this

theorem round1_le_of_le {x : ℚ} (c : ℤ) (h : x ≤ (c : ℚ)) : round1 x ≤ (c : ℚ) := by
  have := round1_mono h
  rwa [round1_intCast] at this

theorem round1_mem_Icc {x : ℚ} {c : ℤ} (h0 : 0 ≤ x) (h1 : x ≤ (c : ℚ)) :
    0 ≤ round1 x ∧ round1 x ≤ (c : ℚ) :=
  ⟨round1_nonneg h0, round1_le_of_le c h1⟩

/-! ## accountability_score_service.py : constants and grade -/

/-- Component weights from `AccountabilityScoreService.WEIGHTS`
(promise_keeping 0.40, transparency 0.20, constituent_alignment 0.20,
attendance 0.10, donor_independence 0.10). -/
def WEIGHTS_promise_keeping : ℚ := 40 / 100
def WEIGHTS_transparency : ℚ := 20 / 100
def WEIGHTS_constituent_alignment : ℚ := 20 / 100
def WEIGHTS_attendance : ℚ := 10 / 100
def WEIGHTS_donor_independence : ℚ := 10 / 100

/-- Grade thresholds from `AccountabilityScoreService.GRADE_THRESHOLDS`,
in the dict's insertion order (the order `_get_grade` iterates them). -/
def GRADE_THRESHOLDS : List (String × ℚ) :=
  [("A", 90), ("B", 80), ("C", 70), ("D", 60), ("F", 0)]

/-- `_get_grade`: return the first grade whose threshold the score meets,
falling back to "F". -/
def getGrade (score : ℚ) : String :=
  match GRADE_THRESHOLDS.find? (fun p => decide (p.2 ≤ score)) with
  | some p => p.1
  | none => "F"

/-- Numeric value of a letter grade, for stating monotonicity of the
grade mapping (A best). -/
def gradeValue : String → Nat
  | "A" => 4
  | "B" => 3
  | "C" => 2
  | "D" => 1
  | _ => 0

/-! ## promise_service.py : promise status -/

/-- Data model for a single recorded vote (one element of a
`VoteSnapshot.votes` list); absent optional fields are the empty string,
matching the `.get(key, "")` accesses in the source. -/
structure Vote where
  id : String
  billNumber : String
  title : String
  date : String
  vote : String
  billSummary : String
  deriving DecidableEq, Repr

/-- One yearly vote snapshot (`votes_data` list element). -/
structure VoteRecord where
  votes : List Vote
  deriving DecidableEq, Repr

/-- `PromiseService._determine_promise_status`: decide kept / broken /
in_progress / not_addressed from the supporting and contradicting vote
lists. -/
def determinePromiseStatus (supportingVotes contradictingVotes : List Vote) : String :=
  let totalVotes := supportingVotes.length + contradictingVotes.length
  if totalVotes = 0 then "not_addressed"
  else
    let contradictionRate : ℚ := (contradictingVotes.length : ℚ) / (totalVotes : ℚ)
    if contradictionRate ≥ 7 / 10 then "broken"
    else if contradictionRate ≥ 4 / 10 then "in_progress"
    else if supportingVotes.length ≥ 3 then "kept"
    else "in_progress"

/-- C6: the letter grade is obtained by testing thresholds in descending
order (A at 90, B at 80, C at 70, D at 60, else F), and the mapping is
monotone in the score. -/
theorem grade_thresholds_and_monotone (s t : ℚ) (h : s ≤ t) :
    (getGrade s =
      if 90 ≤ s then "A"
      else if 80 ≤ s then "B"
      else if 70 ≤ s then "C"
      else if 60 ≤ s then "D"
      else "F") ∧
    gradeValue (getGrade s) ≤ gradeValue (getGrade t) := by
  have hchar : ∀ u : ℚ, getGrade u =
      if 90 ≤ u then "A"
      else if 80 ≤ u then "B"
      else if 70 ≤ u then "C"
      else if 60 ≤ u then "D"
      else "F" := by
    intro u
    by_cases h90 : (90 : ℚ) ≤ u
    · simp [getGrade, GRADE_THRESHOLDS, List.find?, h90]
    · by_cases h80 : (80 : ℚ) ≤ u
      · simp [getGrade, GRADE_THRESHOLDS, List.find?, h90, h80]
      · by_cases h70 : (70 : ℚ) ≤ u
        · simp [getGrade, GRADE_THRESHOLDS, List.find?, h90, h80, h70]
        · by_cases h60 : (60 : ℚ) ≤ u
          · simp [getGrade, GRADE_THRESHOLDS, List.find?, h90, h80, h70, h60]
          · by_cases h0 : (0 : ℚ) ≤ u
            · simp [getGrade, GRADE_THRESHOLDS, List.find?, h90, h80, h70, h60, h0]
            · simp [getGrade, GRADE_THRESHOLDS, List.find?, h90, h80, h70, h60, h0]
  refine ⟨hchar s, ?_⟩
  rw [hchar s, hchar t]
  split_ifs <;> simp [gradeValue] <;> linarith

/-- Witness for the grade theorem at scores 85 ≤ 95. -/
theorem grade_thresholds_and_monotone_witness :
    (85 : ℚ) ≤ 95 ∧
    ((getGrade 85 =
      if (90 : ℚ) ≤ 85 then "A"
      else if (80 : ℚ) ≤ 85 then "B"
      else if (70 : ℚ) ≤ 85 then "C"
      else if (60 : ℚ) ≤ 85 then "D"
      else "F") ∧
    gradeValue (getGrade 85) ≤ gradeValue (getGrade 95)) :=
  ⟨by norm_num, grade_thresholds_and_monotone 85 95 (by norm_num)⟩

/-- C4: the promise status is decided, in order, by: zero related votes →
not_addressed; contradiction rate ≥ 0.7 → broken; rate ≥ 0.4 →
in_progress; rate < 0.4 with at least 3 supporting votes → kept; otherwise
in_progress.  In particular, a promise with zero related votes is never
kept or broken, and the boundaries 0.7 (broken) and 0.4 (in_progress) are
inclusive. -/
theorem promise_status_characterization (sup con : List Vote) :
    (sup.length + con.length = 0 →
      determinePromiseStatus sup con = "not_addressed" ∧
      determinePromiseStatus sup con ≠ "kept" ∧
      determinePromiseStatus sup con ≠ "broken") ∧
    (0 < sup.length + con.length →
      let rate : ℚ := (con.length : ℚ) / ((sup.length : ℚ) + (con.length : ℚ))
      (determinePromiseStatus sup con = "broken" ↔ 7 / 10 ≤ rate) ∧
      (determinePromiseStatus sup con = "kept" ↔ rate < 4 / 10 ∧ 3 ≤ sup.length) ∧
      (determinePromiseStatus sup con = "in_progress" ↔
        ((4 / 10 ≤ rate ∧ rate < 7 / 10) ∨ (rate < 4 / 10 ∧ sup.length < 3)))) := by
  constructor
  · intro h0
    simp [determinePromiseStatus, h0]
  · intro hpos
    intro rate
    have hcast : ((sup.length + con.length : ℕ) : ℚ) =
        (sup.length : ℚ) + (con.length : ℚ) := by push_cast; ring
    have hne : sup.length + con.length ≠ 0 := Nat.pos_iff_ne_zero.mp hpos
    have hstatus : determinePromiseStatus sup con =
        (if 7 / 10 ≤ rate then "broken"
         else if 4 / 10 ≤ rate then "in_progress"
         else if 3 ≤ sup.length then "kept" else "in_progress") := by
      unfold determinePromiseStatus
      rw [if_neg hne]
      simp only [ge_iff_le, hcast]
    rw [hstatus]
    by_cases h7 : (7 : ℚ) / 10 ≤ rate
    · rw [if_pos h7]
      refine ⟨⟨fun _ => h7, fun _ => rfl⟩,
              ⟨fun hc => absurd hc (by decide), fun hk => absurd h7 (by
                rcases hk with ⟨hlt, _⟩; linarith)⟩,
              ⟨fun hc => absurd hc (by decide), ?_⟩⟩
      rintro (⟨_, hb⟩ | ⟨hlt, _⟩)
      · exact absurd h7 (not_le.mpr hb)
      · exact absurd h7 (by linarith)
    · rw [if_neg h7]
      by_cases h4 : (4 : ℚ) / 10 ≤ rate
      · rw [if_pos h4]
        exact ⟨⟨fun hc => absurd hc (by decide), fun hb => absurd hb h7⟩,
               ⟨fun hc => absurd hc (by decide), fun hk => absurd h4 (by
                 rcases hk with ⟨hlt, _⟩; exact not_le.mpr hlt)⟩,
               ⟨fun _ => Or.inl ⟨h4, lt_of_not_le h7⟩, fun _ => rfl⟩⟩
      · rw [if_neg h4]
        by_cases h3 : 3 ≤ sup.length
        · rw [if_pos h3]
          refine ⟨⟨fun hc => absurd hc (by decide), fun hb => ?_⟩,
                  ⟨fun _ => ⟨lt_of_not_le h4, h3⟩, fun _ => rfl⟩,
                  ⟨fun hc => absurd hc (by decide), ?_⟩⟩
          · have : rate < 4 / 10 := lt_of_not_le h4
            linarith
          · rintro (⟨h4a, _⟩ | ⟨_, hs⟩)
            · exact absurd h4a h4
            · exact absurd h3 (not_le.mpr hs)
        · rw [if_neg h3]
          refine ⟨⟨fun hc => absurd hc (by decide), fun hb => ?_⟩,
                  ⟨fun hc => absurd hc (by decide), fun hk => ?_⟩,
                  ⟨fun _ => Or.inr ⟨lt_of_not_le h4, lt_of_not_le h3⟩,
                   fun _ => rfl⟩⟩
          · have : rate < 4 / 10 := lt_of_not_le h4
            linarith
          · rcases hk with ⟨_, h3c⟩
            exact absurd h3c h3

/-- Witness for the promise-status theorem: one contradicting vote and no
supporting votes gives contradiction rate 1 ≥ 0.7, hence "broken". -/
theorem promise_status_characterization_witness :
    determinePromiseStatus [] [Vote.mk "v1" "HB1" "Some bill" "2024-01-01" "no" ""] = "broken" := by
  have h := (promise_status_characterization []
    [Vote.mk "v1" "HB1" "Some bill" "2024-01-01" "no" ""]).2 (by decide)
  exact h.1.mpr (by norm_num)

/-! ## Shared data model (input snapshots) -/

/-- Contact information from `official_data["personal"]["contactInfo"]`;
a missing key is `none`, an empty string is falsy like in Python. -/
structure ContactInfo where
  email : Option String
  phone : Option String
  website : Option String
  deriving DecidableEq, Repr

/-- The slice of `official_data` the engine reads. -/
structure OfficialData where
  contactInfo : ContactInfo
  deriving DecidableEq, Repr

/-- Python truthiness of an optional string (`None` and `""` are falsy). -/
def truthy : Option String → Bool
  | none => false
  | some s => !(s == "")

/-- One entry of `donations_data["topDonors"]`. -/
structure Donor where
  name : String
  amount : ℚ
  dtype : String
  industry : Option String
  deriving DecidableEq, Repr

/-- One entry of `donations_data["topIndustries"]`. -/
structure IndustryContribution where
  industry : String
  amount : ℚ
  deriving DecidableEq, Repr

/-- `donations_data["summary"]`. -/
structure DonationSummary where
  totalRaised : ℚ
  individualContributions : ℚ
  pacContributions : ℚ
  deriving DecidableEq, Repr

/-- The donation snapshot consumed by the engine. -/
structure DonationsData where
  summary : DonationSummary
  topDonors : List Donor
  topIndustries : List IndustryContribution
  deriving DecidableEq, Repr

/-- A stock trade record; the engine only ever uses the count of trades,
so the payload is kept as an opaque key-value dict. -/
structure StockTrade where
  raw : List (String × String)
  deriving DecidableEq, Repr

/-- One entry of `stocks_data["conflictAlerts"]`. -/
structure ConflictAlert where
  description : String
  tradeDate : String
  asset : String
  voteDate : String
  bill : String
  deriving DecidableEq, Repr

/-- The stock snapshot consumed by the red-flag detector. -/
structure StocksData where
  trades : List StockTrade
  conflictAlerts : List ConflictAlert
  deriving DecidableEq, Repr

/-! ## Derived analysis records (outputs of the two analyzers) -/

/-- One evidence entry attached to an analyzed promise. -/
structure EvidenceItem where
  voteId : String
  billName : String
  billNumber : String
  vote : String
  date : String
  contradictsPromise : Bool
  deriving DecidableEq, Repr

/-- One analyzed promise, as returned by `_analyze_single_promise`. -/
structure PromiseResult where
  promiseId : String
  category : String
  promiseText : String
  promiseDate : String
  sourceUrl : String
  status : String
  evidence : List EvidenceItem
  timesVotedAgainst : ℕ
  timesVotedFor : ℕ
  deriving DecidableEq, Repr

/-- The `summary` block of the promise analysis. -/
structure PromiseSummary where
  totalPromises : ℕ
  kept : ℕ
  broken : ℕ
  inProgress : ℕ
  notAddressed : ℕ
  promiseKeepingScore : ℚ
  deriving DecidableEq, Repr

/-- Output of `analyze_promise_keeping`. -/
structure PromiseAnalysis where
  officialId : String
  summary : PromiseSummary
  promises : List PromiseResult
  deriving DecidableEq, Repr

/-- One timing red flag emitted by the influence analyzer (all have
`type = "suspicious_timing"` in the source; the field is kept to mirror
the dict). -/
structure InfluenceRedFlag where
  rtype : String
  donationDate : String
  donationAmount : ℚ
  donor : String
  voteDate : String
  voteDescription : String
  daysBetween : ℕ
  deriving DecidableEq, Repr

/-- One per-industry entry of the influence breakdown. -/
structure ExampleVote where
  bill : String
  title : String
  vote : String
  date : String
  deriving DecidableEq, Repr

/-- One industry entry of `top_industries`. -/
structure IndustryReport where
  industry : String
  industryKey : String
  totalDonations : ℚ
  votingAlignment : ℚ
  suspiciousVotes : ℕ
  relatedVotesCount : ℕ
  examples : List ExampleVote
  deriving DecidableEq, Repr

/-- Output of `calculate_influence_score`. -/
structure InfluenceAnalysis where
  officialId : String
  influenceScore : ℚ
  topIndustries : List IndustryReport
  redFlags : List InfluenceRedFlag
  donationConcentration : ℚ
  avgVotingAlignment : ℚ
  suspiciousTimingRate : ℚ
  totalDonationsAnalyzed : ℚ
  totalVotesAnalyzed : ℕ
  deriving DecidableEq, Repr

/-! ## red_flags_service.py -/

/-- Insert thousands separators into the decimal rendering of a natural
number, as Python string formatting with a comma grouping option does. -/
def commaGroupRev : List Char → List Char
  | a :: b :: c :: d :: rest => a :: b :: c :: ',' :: commaGroupRev (d :: rest)
  | l => l

/-- Decimal rendering of a natural number with thousands separators. -/
def natCommas (n : ℕ) : String :=
  (commaGroupRev (toString n).toList.reverse).reverse.asString

/-- Python money formatting with no decimals: round to the nearest integer
and group each three digits with commas, with a leading minus sign for
negative amounts. -/
def formatMoney (q : ℚ) : String :=
  let n : ℤ := round q
  if n < 0 then "-" ++ natCommas n.natAbs else natCommas n.natAbs

/-- Python fixed one-decimal float formatting applied to a rational. -/
def formatPct1 (q : ℚ) : String :=
  let r : ℤ := round (10 * q)
  let sign := if r < 0 then "-" else ""
  sign ++ toString (r.natAbs / 10) ++ "." ++ toString (r.natAbs % 10)

/-- A detected red flag.  The heterogeneous evidence fields of the Python
dict are carried as an ordered key-value list in `extra`. -/
structure RedFlag where
  id : String
  ftype : String
  severity : String
  title : String
  description : String
  extra : List (String × String)
  deriving DecidableEq, Repr

/-- `_detect_broken_promise_flags`. -/
def detectBrokenPromiseFlags (pa : PromiseAnalysis) : List RedFlag :=
  let total := pa.summary.totalPromises
  let broken := pa.summary.broken
  if total = 0 then []
  else
    let brokenRate : ℚ := (broken : ℚ) / (total : ℚ)
    if brokenRate ≥ 1 / 2 then
      let worstPromises := pa.promises.filter
        (fun p => p.status == "broken" && decide (p.timesVotedAgainst ≥ 5))
      (worstPromises.take 5).map fun p =>
        { id := ""
          ftype := "broken_promise"
          severity := if p.timesVotedAgainst ≥ 10 then "high" else "medium"
          title := "Voted against campaign promise " ++
            toString p.timesVotedAgainst ++ " times"
          description := "Promised to " ++ p.promiseText ++
            " but voted against it " ++ toString p.timesVotedAgainst ++ " times"
          extra :=
            [("evidence_count", toString p.timesVotedAgainst),
             ("first_occurrence",
               match p.evidence with
               | [] => ""
               | e :: _ => e.date),
             ("last_occurrence",
               match p.evidence.getLast? with
               | none => ""
               | some e => e.date),
             ("category", p.category)] }
    else []

/-- `_detect_suspicious_timing_flags`: consume the first ten influence
red flags, keeping those of type `suspicious_timing`. -/
def detectSuspiciousTimingFlags (ia : InfluenceAnalysis) : List RedFlag :=
  (ia.redFlags.take 10).filterMap fun rf =>
    if rf.rtype == "suspicious_timing" then
      let days := rf.daysBetween
      some
        { id := ""
          ftype := "suspicious_timing"
          severity :=
            if days ≤ 7 then "critical"
            else if days ≤ 14 then "high"
            else "medium"
          title := "Donation followed by favorable vote within " ++
            toString days ++ " days"
          description := "$" ++ formatMoney rf.donationAmount ++
            " donation from " ++ rf.donor ++
            ", then voted favorably on related bill"
          extra :=
            [("donation_date", rf.donationDate),
             ("vote_date", rf.voteDate),
             ("days_between", toString days),
             ("donation_amount", toString rf.donationAmount),
             ("donor", rf.donor),
             ("vote_description", rf.voteDescription)] }
    else none

/-- Votes counted as missed by the red-flag attendance detector. -/
def isMissedVote (v : Vote) : Bool :=
  toLowerStr v.vote == "not-voting" || toLowerStr v.vote == "not voting" ||
    toLowerStr v.vote == "present"

/-- `_detect_attendance_flags`. -/
def detectAttendanceFlags (votesData : List VoteRecord) : List RedFlag :=
  let totalVotes := (votesData.map (fun r => r.votes.length)).sum
  let missedVotes := (votesData.map (fun r => r.votes.countP isMissedVote)).sum
  if totalVotes = 0 then []
  else
    let missedRate : ℚ := (missedVotes : ℚ) / (totalVotes : ℚ)
    if missedRate ≥ 20 / 100 then
      let multiplier : ℚ := missedRate / (8 / 100)
      [{ id := ""
         ftype := "excessive_missed_votes"
         severity :=
           if multiplier ≥ 3 then "critical"
           else if multiplier ≥ 2 then "high"
           else "medium"
         title := "Missed " ++ formatPct1 (missedRate * 100) ++ "% of votes"
         description := "Missed " ++ toString missedVotes ++ " of " ++
           toString totalVotes ++ " votes (" ++ formatPct1 multiplier ++
           "x the congressional average)"
         extra :=
           [("missed_votes", toString missedVotes),
            ("total_votes", toString totalVotes),
            ("missed_rate_pct", toString (round1 (missedRate * 100))),
            ("congress_average_pct", toString (round1 ((8 : ℚ))))] }]
    else []

/-- `_detect_transparency_flags`. -/
def detectTransparencyFlags (off : OfficialData) : List RedFlag :=
  let ci := off.contactInfo
  (if !truthy ci.email && !truthy ci.phone then
    [{ id := ""
       ftype := "low_accessibility"
       severity := "medium"
       title := "Limited contact information available"
       description := "No public email or phone number listed, making it difficult for constituents to reach their representative"
       extra := [] }]
  else []) ++
  (if !truthy ci.website then
    [{ id := ""
       ftype := "low_transparency"
       severity := "low"
       title := "No public website"
       description := "No official website listed for constituent information"
       extra := [] }]
  else [])

/-- `_detect_stock_conflicts` (the `votes_data` argument of the source is
unused inside the function and is omitted). -/
def detectStockConflicts (stocksData : StocksData) : List RedFlag :=
  let trades := stocksData.trades
  let conflictAlerts := stocksData.conflictAlerts
  ((conflictAlerts.take 10).map fun alert =>
    { id := ""
      ftype := "stock_conflict"
      severity := "high"
      title := "Stock trade in conflicted industry"
      description := alert.description
      extra :=
        [("trade_date", alert.tradeDate),
         ("asset", alert.asset),
         ("vote_date", alert.voteDate),
         ("bill", alert.bill)] }) ++
  (if trades.length > 50 then
    [{ id := ""
       ftype := "excessive_trading"
       severity := "medium"
       title := "High volume of stock trades (" ++ toString trades.length ++ ")"
       description := "Made " ++ toString trades.length ++
         " stock trades, raising questions about potential conflicts of interest"
       extra := [("trade_count", toString trades.length)] }]
  else [])

/-- `_detect_donor_concentration_flags`. -/
def detectDonorConcentrationFlags (donationsData : DonationsData) : List RedFlag :=
  let totalRaised := donationsData.summary.totalRaised
  let pacContributions := donationsData.summary.pacContributions
  if totalRaised = 0 then []
  else
    let pacRate : ℚ := pacContributions / totalRaised
    (if pacRate ≥ 60 / 100 then
      [{ id := ""
         ftype := "corporate_pac_dependency"
         severity :=
           if pacRate ≥ 80 / 100 then "critical"
           else if pacRate ≥ 70 / 100 then "high"
           else "medium"
         title := formatPct1 (pacRate * 100) ++ "% of funding from PACs"
         description := "Received " ++ formatPct1 (pacRate * 100) ++
           "% of campaign funding from PACs, suggesting heavy corporate influence"
         extra :=
           [("pac_amount", toString pacContributions),
            ("total_raised", toString totalRaised),
            ("pac_percentage", toString (round1 (pacRate * 100)))] }]
    else []) ++
    (let topDonors := donationsData.topDonors
     if topDonors.length ≥ 10 then
       let top10Total := ((topDonors.take 10).map (fun d => d.amount)).sum
       let concentration : ℚ := if totalRaised > 0 then top10Total / totalRaised else 0
       if concentration ≥ 70 / 100 then
         [{ id := ""
            ftype := "donor_concentration"
            severity := if concentration ≥ 80 / 100 then "high" else "medium"
            title := "Top 10 donors account for " ++
              formatPct1 (concentration * 100) ++ "% of funding"
            description := "Campaign funding highly concentrated among small group of donors"
            extra :=
              [("concentration_percentage", toString (round1 (concentration * 100))),
               ("top_10_amount", toString top10Total),
               ("total_raised", toString totalRaised)] }]
       else []
     else [])

/-- The `severity_order` dict used as sort key: unknown severities rank
lowest (3), like `severity_order.get(..., 3)` in the source. -/
def severityOrder : List (String × ℚ) :=
  [("critical", 0), ("high", 1), ("medium", 2), ("low", 3)]

/-- Rank of a severity string for the final sort. -/
def severityRank (s : String) : ℚ :=
  match severityOrder.find? (fun p => p.1 == s) with
  | some p => p.2
  | none => 3

/-- Flags of all six detectors, in detection order: broken promises,
suspicious timing, attendance, transparency, stock conflicts, donor
concentration.  A `none` input skips the corresponding detector, as
Python truthiness does; a present-but-empty votes list is falsy too. -/
def detectionFlags (off : OfficialData) (pa : Option PromiseAnalysis)
    (ia : Option InfluenceAnalysis) (vd : Option (List VoteRecord))
    (dd : Option DonationsData) (sd : Option StocksData) : List RedFlag :=
  (match pa with
   | some a => detectBrokenPromiseFlags a
   | none => []) ++
  (match ia with
   | some a => detectSuspiciousTimingFlags a
   | none => []) ++
  (match vd with
   | some v => if v.isEmpty then [] else detectAttendanceFlags v
   | none => []) ++
  detectTransparencyFlags off ++
  (match sd with
   | some s => detectStockConflicts s
   | none => []) ++
  (match dd with
   | some d => detectDonorConcentrationFlags d
   | none => [])

/-- Attach one fresh id to each flag in detection order, modelling the
`uuid.uuid4()` calls by an explicit supply of id strings. -/
def attachIds (ids : ℕ → String) (l : List RedFlag) : List RedFlag :=
  l.enum.map (fun p => { p.2 with id := ids p.1 })

/-- The red-flags report returned by `detect_red_flags`. -/
structure RedFlagsReport where
  officialId : String
  totalRedFlags : ℕ
  bySeverityCritical : ℕ
  bySeverityHigh : ℕ
  bySeverityMedium : ℕ
  bySeverityLow : ℕ
  flags : List RedFlag
  deriving DecidableEq, Repr

/-- `detect_red_flags`: run the six detectors, count severities, and sort
the flags by severity (Python's stable in-place sort).  All emitted
severities lie in the `severity_counts` key set, so counting via `countP`
matches the dict increments of the source. -/
def detectRedFlags (ids : ℕ → String) (officialId : String)
    (off : OfficialData) (pa : Option PromiseAnalysis)
    (ia : Option InfluenceAnalysis) (vd : Option (List VoteRecord))
    (dd : Option DonationsData) (sd : Option StocksData) : RedFlagsReport :=
  let fl := attachIds ids (detectionFlags off pa ia vd dd sd)
  { officialId := officialId
    totalRedFlags := fl.length
    bySeverityCritical := fl.countP (fun f => f.severity == "critical")
    bySeverityHigh := fl.countP (fun f => f.severity == "high")
    bySeverityMedium := fl.countP (fun f => f.severity == "medium")
    bySeverityLow := fl.countP (fun f => f.severity == "low")
    flags := keySort (fun f => severityRank f.severity) fl }

/-! ### More facts about the stable sort and id attachment -/

theorem keyInsert_filter_of_key_mem (f : α → ℚ) (k : ℚ) (p : α → Bool)
    (x : α) (l : List α) (hp : ∀ a, a ∈ x :: l → (p a = true ↔ f a = k)) :
    (keyInsert f x l).filter p =
      if p x then x :: l.filter p else l.filter p := by
  induction l with
  | nil => cases hx : p x <;> simp [keyInsert, List.filter, hx]
  | cons y ys ih =>
      have hpx := hp x (List.mem_cons_self x _)
      have hpy := hp y (List.mem_cons_of_mem x (List.mem_cons_self y ys))
      simp only [keyInsert]
      split
      · rename_i hlt
        have ih2 := ih (fun a ha => hp a (by
          rcases List.mem_cons.mp ha with rfl | ha2
          · exact List.mem_cons_self a _
          · exact List.mem_cons_of_mem x (List.mem_cons_of_mem y ha2)))
        by_cases hx : p x = true
        · have hfx : f x = k := hpx.mp hx
          have hpy2 : p y = false := by
            cases hc : p y with
            | false => rfl
            | true =>
                have h1 : f y = k := hpy.mp hc
                have h2 : f y < f x := hlt
                rw [h1, hfx] at h2
                exact absurd h2 (lt_irrefl k)
          simp [List.filter_cons, hx, hpy2, ih2]
        · have hx2 : p x = false := Bool.eq_false_iff.mpr hx
          cases hc : p y with
          | false => simp [List.filter_cons, hx2, hc, ih2]
          | true => simp [List.filter_cons, hx2, hc, ih2]
      · cases hx : p x <;> simp [List.filter_cons, hx]

theorem keySort_filter_of_key_mem (f : α → ℚ) (k : ℚ) (p : α → Bool)
    (l : List α) (hp : ∀ a, a ∈ l → (p a = true ↔ f a = k)) :
    (keySort f l).filter p = l.filter p := by
  induction l with
  | nil => simp [keySort]
  | cons x xs ih =>
      have hsub : ∀ a, a ∈ xs → (p a = true ↔ f a = k) :=
        fun a ha => hp a (List.mem_cons_of_mem x ha)
      have hmem : ∀ a, a ∈ x :: keySort f xs → (p a = true ↔ f a = k) := by
        intro a ha
        rcases List.mem_cons.mp ha with rfl | ha2
        · exact hp a (List.mem_cons_self a xs)
        · exact hsub a ((keySort_perm f xs).mem_iff.mp ha2)
      rw [keySort, keyInsert_filter_of_key_mem f k p x (keySort f xs) hmem,
        ih hsub, List.filter_cons]

theorem keyInsert_map_comm (g : α → α) (f : α → ℚ)
    (hg : ∀ a, f (g a) = f a) (x : α) (l : List α) :
    keyInsert f (g x) (l.map g) = (keyInsert f x l).map g := by
  induction l with
  | nil => simp [keyInsert]
  | cons y ys ih =>
      simp only [List.map_cons, keyInsert, hg]
      split <;> simp_all [List.map_cons]

theorem keySort_map_comm (g : α → α) (f : α → ℚ)
    (hg : ∀ a, f (g a) = f a) (l : List α) :
    keySort f (l.map g) = (keySort f l).map g := by
  induction l with
  | nil => simp [keySort]
  | cons x xs ih =>
      simp only [List.map_cons, keySort, ih]
      exact keyInsert_map_comm g f hg x (keySort f xs)

theorem enumFrom_map_on_snd (g : α → β) (n : ℕ) (l : List α) :
    (List.enumFrom n l).map (fun p => g p.2) = l.map g := by
  induction l generalizing n with
  | nil => simp
  | cons x xs ih => simp [List.enumFrom, ih]

theorem attachIds_length (ids : ℕ → String) (l : List RedFlag) :
    (attachIds ids l).length = l.length := by
  simp [attachIds]

theorem attachIds_map_erase (ids : ℕ → String) (l : List RedFlag) :
    (attachIds ids l).map (fun f => { f with id := "" }) =
      l.map (fun f => { f with id := "" }) := by
  unfold attachIds List.enum
  rw [List.map_map]
  exact enumFrom_map_on_snd (fun f => { f with id := "" }) 0 l

theorem attachIds_severity_map (ids : ℕ → String) (l : List RedFlag) :
    (attachIds ids l).map (fun f => f.severity) = l.map (fun f => f.severity) := by
  unfold attachIds List.enum
  rw [List.map_map]
  exact enumFrom_map_on_snd (fun f => f.severity) 0 l

theorem countP_eq_of_severity_map (p : String → Bool) (l₁ l₂ : List RedFlag)
    (h : l₁.map (fun f => f.severity) = l₂.map (fun f => f.severity)) :
    l₁.countP (fun f => p f.severity) = l₂.countP (fun f => p f.severity) := by
  have h1 : l₁.countP (fun f => p f.severity) =
      (l₁.map (fun f => f.severity)).countP p := by
    rw [List.countP_map]; rfl
  have h2 : l₂.countP (fun f => p f.severity) =
      (l₂.map (fun f => f.severity)).countP p := by
    rw [List.countP_map]; rfl
  rw [h1, h2, h]

/-- The set of severities any detector can emit. -/
def severityKnown (f : RedFlag) : Prop :=
  f.severity ∈ (["critical", "high", "medium", "low"] : List String)

theorem severityKnown_broken (a : PromiseAnalysis) (f : RedFlag)
    (hf : f ∈ detectBrokenPromiseFlags a) : severityKnown f := by
  simp only [detectBrokenPromiseFlags] at hf
  split at hf
  · simp at hf
  · split at hf
    · rcases List.mem_map.mp hf with ⟨p, _, rfl⟩
      by_cases h10 : p.timesVotedAgainst ≥ 10 <;> simp [severityKnown, h10]
    · simp at hf

theorem severityKnown_timing (a : InfluenceAnalysis) (f : RedFlag)
    (hf : f ∈ detectSuspiciousTimingFlags a) : severityKnown f := by
  unfold detectSuspiciousTimingFlags at hf
  rcases List.mem_filterMap.mp hf with ⟨rf, _, hsome⟩
  split at hsome
  · rcases Option.some_inj.mp hsome with rfl
    by_cases h7 : rf.daysBetween ≤ 7
    · simp [severityKnown, h7]
    · by_cases h14 : rf.daysBetween ≤ 14 <;> simp [severityKnown, h7, h14]
  · simp at hsome

theorem severityKnown_attendance (v : List VoteRecord) (f : RedFlag)
    (hf : f ∈ detectAttendanceFlags v) : severityKnown f := by
  simp only [detectAttendanceFlags] at hf
  split at hf
  · simp at hf
  · split at hf
    · rcases List.mem_singleton.mp hf with rfl
      rename_i hge
      by_cases h3 : ((((v.map (fun r => r.votes.countP isMissedVote)).sum : ℚ) /
          ((v.map (fun r => r.votes.length)).sum : ℚ)) / (8 / 100)) ≥ 3
      · simp [severityKnown, h3]
      · by_cases h2 : ((((v.map (fun r => r.votes.countP isMissedVote)).sum : ℚ) /
            ((v.map (fun r => r.votes.length)).sum : ℚ)) / (8 / 100)) ≥ 2 <;>
          simp [severityKnown, h3, h2]
    · simp at hf

theorem severityKnown_transparency (off : OfficialData) (f : RedFlag)
    (hf : f ∈ detectTransparencyFlags off) : severityKnown f := by
  unfold detectTransparencyFlags at hf
  rcases List.mem_append.mp hf with hf2 | hf2 <;> split at hf2 <;>
    simp_all [severityKnown]

theorem severityKnown_stock (sd : StocksData) (f : RedFlag)
    (hf : f ∈ detectStockConflicts sd) : severityKnown f := by
  unfold detectStockConflicts at hf
  rcases List.mem_append.mp hf with hf2 | hf2
  · rcases List.mem_map.mp hf2 with ⟨al, _, rfl⟩
    simp [severityKnown]
  · split at hf2 <;> simp_all [severityKnown]

theorem severityKnown_donor (dd : DonationsData) (f : RedFlag)
    (hf : f ∈ detectDonorConcentrationFlags dd) : severityKnown f := by
  simp only [detectDonorConcentrationFlags] at hf
  split at hf
  · simp at hf
  · rcases List.mem_append.mp hf with hf2 | hf2 <;>
      · repeat split at hf2
        all_goals simp_all [severityKnown]
        all_goals (split <;> simp_all)

theorem severityKnown_detectionFlags (off : OfficialData)
    (pa : Option PromiseAnalysis) (ia : Option InfluenceAnalysis)
    (vd : Option (List VoteRecord)) (dd : Option DonationsData)
    (sd : Option StocksData) (f : RedFlag)
    (hf : f ∈ detectionFlags off pa ia vd dd sd) : severityKnown f := by
  unfold detectionFlags at hf
  rcases List.mem_append.mp hf with hf1 | hdonor
  rcases List.mem_append.mp hf1 with hf2 | hstock
  rcases List.mem_append.mp hf2 with hf3 | htrans
  rcases List.mem_append.mp hf3 with hf4 | hatt
  rcases List.mem_append.mp hf4 with hbroke | htime
  · match pa with
    | some a => exact severityKnown_broken a f hbroke
    | none => simp at hbroke
  · match ia with
    | some a => exact severityKnown_timing a f htime
    | none => simp at htime
  · match vd with
    | some v =>
        by_cases hv : v.isEmpty
        · simp [hv] at hatt
        · simp only [hv] at hatt
          simp only [Bool.false_eq_true, if_false] at hatt
          exact severityKnown_attendance v f hatt
    | none => simp at hatt
  · exact severityKnown_transparency off f htrans
  · match sd with
    | some s => exact severityKnown_stock s f hstock
    | none => simp at hstock
  · match dd with
    | some d => exact severityKnown_donor d f hdonor
    | none => simp at hdonor

theorem severityKnown_attachIds (ids : ℕ → String) (l : List RedFlag)
    (hl : ∀ g ∈ l, severityKnown g) (f : RedFlag)
    (hf : f ∈ attachIds ids l) : severityKnown f := by
  have hm : f.severity ∈ (attachIds ids l).map (fun x => x.severity) :=
    List.mem_map_of_mem _ hf
  rw [attachIds_severity_map] at hm
  rcases List.mem_map.mp hm with ⟨b, hb, heq⟩
  have hkb := hl b hb
  unfold severityKnown at hkb ⊢
  rw [← heq]
  exact hkb

/-- C7: the red-flag report's flag list is sorted severity-first
(critical before high before medium before low), within each severity tier
it preserves the original detection order (the per-detector emission order
of `detectionFlags`), and the by-severity counts and the total equal the
number of flags of each severity in the list. -/
theorem red_flags_sorted_stable_counted (ids : ℕ → String) (oid : String)
    (off : OfficialData) (pa : Option PromiseAnalysis)
    (ia : Option InfluenceAnalysis) (vd : Option (List VoteRecord))
    (dd : Option DonationsData) (sd : Option StocksData) :
    let report := detectRedFlags ids oid off pa ia vd dd sd
    let detected := attachIds ids (detectionFlags off pa ia vd dd sd)
    report.flags.Pairwise
        (fun a b => severityRank a.severity ≤ severityRank b.severity) ∧
    (∀ s ∈ (["critical", "high", "medium", "low"] : List String),
      report.flags.filter (fun f => f.severity == s) =
        detected.filter (fun f => f.severity == s)) ∧
    report.bySeverityCritical = report.flags.countP (fun f => f.severity == "critical") ∧
    report.bySeverityHigh = report.flags.countP (fun f => f.severity == "high") ∧
    report.bySeverityMedium = report.flags.countP (fun f => f.severity == "medium") ∧
    report.bySeverityLow = report.flags.countP (fun f => f.severity == "low") ∧
    report.totalRedFlags = report.flags.length := by
  intro report detected
  have hknown : ∀ g ∈ detected, severityKnown g :=
    severityKnown_attachIds ids _
      (fun g hg => severityKnown_detectionFlags off pa ia vd dd sd g hg)
  refine ⟨?_, ?_, ?_, ?_, ?_, ?_, ?_⟩
  · exact keySort_pairwise _ _
  · intro s hs
    show (keySort (fun f => severityRank f.severity) detected).filter
        (fun f => f.severity == s) = detected.filter (fun f => f.severity == s)
    refine keySort_filter_of_key_mem (fun f : RedFlag => severityRank f.severity)
      (severityRank s) (fun f => f.severity == s) detected ?_
    intro a ha
    have hk := hknown a ha
    unfold severityKnown at hk
    simp only [List.mem_cons, List.not_mem_nil, or_false] at hk
    fin_cases hs <;> rcases hk with h | h | h | h <;>
      simp [h, severityRank, severityOrder]
  · exact (keySort_countP _ _ _).symm
  · exact (keySort_countP _ _ _).symm
  · exact (keySort_countP _ _ _).symm
  · exact (keySort_countP _ _ _).symm
  · exact (keySort_length _ _).symm

/-- An official record with no contact information at all. -/
def offNoContact : OfficialData := ⟨⟨none, none, none⟩⟩

/-- Witness for the sorted-stable-counted theorem at a concrete input
(the transparency detector fires twice on an official with no contact
info), instantiating the quantified severity at "medium". -/
theorem red_flags_sorted_stable_counted_witness :
    ("medium" ∈ (["critical", "high", "medium", "low"] : List String)) ∧
    (detectRedFlags (fun _ => "x") "o" offNoContact none none none none none).flags.filter
        (fun f => f.severity == "medium") =
      (attachIds (fun _ => "x")
        (detectionFlags offNoContact none none none none none)).filter
        (fun f => f.severity == "medium") :=
  ⟨by decide,
   (red_flags_sorted_stable_counted (fun _ => "x") "o" offNoContact
      none none none none none).2.1 "medium" (by decide)⟩

theorem countP_map_const_true (g : α → β) (p : β → Bool)
    (h : ∀ a, p (g a) = true) (l : List α) :
    (l.map g).countP p = l.length := by
  induction l with
  | nil => rfl
  | cons x xs ih => simp [List.countP_cons, h, ih]

theorem countP_map_const_false (g : α → β) (p : β → Bool)
    (h : ∀ a, p (g a) = false) (l : List α) :
    (l.map g).countP p = 0 := by
  induction l with
  | nil => rfl
  | cons x xs ih => simp [List.countP_cons, h, ih]

/-- C3 (amended): each of the first ten supplied conflict alerts produces
one high-severity stock-conflict flag — so the number of stock-conflict
flags is `min (number of alerts) 10`, not the full alert count — and a
trade count greater than 50 produces exactly one medium-severity
excessive-trading flag. -/
theorem stock_conflict_flags (sd : StocksData) :
    ((detectStockConflicts sd).countP (fun f => f.ftype == "stock_conflict") =
      min sd.conflictAlerts.length 10) ∧
    (∀ f ∈ detectStockConflicts sd,
      f.ftype = "stock_conflict" → f.severity = "high") ∧
    ((detectStockConflicts sd).countP (fun f => f.ftype == "excessive_trading") =
      if 50 < sd.trades.length then 1 else 0) ∧
    (∀ f ∈ detectStockConflicts sd,
      f.ftype = "excessive_trading" → f.severity = "medium") := by
  refine ⟨?_, ?_, ?_, ?_⟩
  · simp only [detectStockConflicts, List.countP_append]
    rw [countP_map_const_true _ _ (fun a => rfl), List.length_take, Nat.min_comm]
    have hb : (("excessive_trading" == "stock_conflict") : Bool) = false := rfl
    split
    · simp [List.countP_cons, hb]
    · simp
  · intro f hf hft
    simp only [detectStockConflicts] at hf
    rcases List.mem_append.mp hf with hf2 | hf2
    · rcases List.mem_map.mp hf2 with ⟨al, _, rfl⟩
      rfl
    · split at hf2
      · rcases List.mem_singleton.mp hf2 with rfl
        simp at hft
      · simp at hf2
  · simp only [detectStockConflicts, List.countP_append]
    rw [countP_map_const_false _ _ (fun a => rfl)]
    have hb : (("excessive_trading" == "excessive_trading") : Bool) = true := rfl
    split
    · simp [List.countP_cons, hb]
    · simp
  · intro f hf hft
    simp only [detectStockConflicts] at hf
    rcases List.mem_append.mp hf with hf2 | hf2
    · rcases List.mem_map.mp hf2 with ⟨al, _, rfl⟩
      simp at hft
    · split at hf2
      · rcases List.mem_singleton.mp hf2 with rfl
        rfl
      · simp at hf2

/-- A concrete conflict alert. -/
def alertEx : ConflictAlert :=
  ⟨"conflict desc", "2024-01-02", "XYZ", "2024-01-05", "HB9"⟩

/-- A stock snapshot carrying eleven identical conflict alerts. -/
def stocksEleven : StocksData := ⟨[], List.replicate 11 alertEx⟩

/-- Counterexample to C3 as stated: with eleven supplied conflict alerts
the detector emits only ten stock-conflict flags (the source caps at
`conflict_alerts[:10]`), so the flag count does not equal the alert
count. -/
theorem stock_conflicts_capped_counterexample :
    (detectStockConflicts stocksEleven).countP
        (fun f => f.ftype == "stock_conflict") = 10 ∧
    stocksEleven.conflictAlerts.length = 11 ∧
    (detectStockConflicts stocksEleven).countP
        (fun f => f.ftype == "stock_conflict") ≠
      stocksEleven.conflictAlerts.length := by
  refine ⟨by decide, by decide, by decide⟩

/-- The flag produced for `alertEx`. -/
def stockFlagEx : RedFlag :=
  { id := ""
    ftype := "stock_conflict"
    severity := "high"
    title := "Stock trade in conflicted industry"
    description := "conflict desc"
    extra :=
      [("trade_date", "2024-01-02"), ("asset", "XYZ"),
       ("vote_date", "2024-01-05"), ("bill", "HB9")] }

/-- Witness for the amended stock-conflict theorem at a concrete flag. -/
theorem stock_conflict_flags_witness :
    stockFlagEx ∈ detectStockConflicts stocksEleven ∧
    stockFlagEx.severity = "high" :=
  ⟨by decide, (stock_conflict_flags stocksEleven).2.1 stockFlagEx (by decide) rfl⟩

/-- Counterexample to C1 as stated: the red-flag ids come from
`uuid.uuid4()`, so two runs of the pipeline on the identical input snapshot
(differing only in the fresh-uuid source, which is not part of the input)
produce reports whose flag id fields differ. -/
theorem red_flag_ids_differ_between_runs :
    detectRedFlags (fun _ => "run-one-uuid") "o" offNoContact
        none none none none none ≠
      detectRedFlags (fun _ => "run-two-uuid") "o" offNoContact
        none none none none none := by
  decide

/-! ## influence_service.py -/

/-- One industry entry of the static keyword table. -/
structure IndustryInfo where
  key : String
  name : String
  keywords : List String
  deriving DecidableEq, Repr

/-- One bill-category entry of the static keyword table. -/
structure BillCategory where
  key : String
  keywords : List String
  deriving DecidableEq, Repr

/-- Modelled from the spec: the keyword tables are loaded from
`backend/app/data/industries.json`, a data file that is not part of the
source tree; spec §4.1 fixes their shape (per-industry and per-category
keyword sets matched by substring containment in a fixed priority order,
fallback "other").  The influence functions are therefore parameterized
over this immutable configuration. -/
structure InfluenceConfig where
  industries : List IndustryInfo
  billCategories : List BillCategory
  deriving DecidableEq, Repr

/-- `categorize_donation_industry`: try the existing industry label first
(when truthy), then the donor name; first keyword match in table order
wins; fall back to "other". -/
def categorizeDonationIndustry (cfg : InfluenceConfig) (donorName : String)
    (currentIndustry : Option String) : String :=
  let donorLower := toLowerStr donorName
  let byName :=
    match cfg.industries.find?
        (fun d => d.keywords.any (fun kw => containsSub kw donorLower)) with
    | some d => d.key
    | none => "other"
  match currentIndustry with
  | some ci =>
      if ci == "" then byName
      else
        let industryLower := toLowerStr ci
        match cfg.industries.find?
            (fun d => d.keywords.any (fun kw => containsSub kw industryLower)) with
        | some d => d.key
        | none => byName
  | none => byName

/-- `categorize_bill`: all matching category keys, or `["other"]`.  The
summary is appended only when truthy, matching `if bill_summary:`. -/
def categorizeBill (cfg : InfluenceConfig) (billTitle billSummary : String) :
    List String :=
  let text := toLowerStr billTitle ++
    (if billSummary == "" then "" else " " ++ toLowerStr billSummary)
  let cats := (cfg.billCategories.filter
      (fun c => c.keywords.any (fun kw => containsSub kw text))).map
    (fun c => c.key)
  if cats.isEmpty then ["other"] else cats

/-- The fixed `favorable_patterns` table of
`is_vote_favorable_to_industry`. -/
def favorablePatterns (industry category vote : String) : Option Bool :=
  match industry, category with
  | "pharmaceuticals", "healthcare" => some (vote == "no")
  | "oil_gas", "environment" => some (vote == "no")
  | "oil_gas", "energy" => some (vote == "yes")
  | "tech", "technology" => some (vote == "no")
  | "finance", "economy" => some (vote == "no")
  | "defense", "defense" => some (vote == "yes")
  | _, _ => none

/-- `is_vote_favorable_to_industry`: the first bill category present in the
industry's pattern table decides; default false. -/
def isVoteFavorableToIndustry (vote : String) (billCategories : List String)
    (industry : String) : Bool :=
  match billCategories.findSome? (fun c => favorablePatterns industry c vote) with
  | some b => b
  | none => false

/-- The fixed `industry_category_map` of `_is_industry_related`. -/
def industryCategoryMap (industry : String) : List String :=
  match industry with
  | "pharmaceuticals" => ["healthcare"]
  | "oil_gas" => ["energy", "environment"]
  | "tech" => ["technology"]
  | "finance" => ["economy"]
  | "defense" => ["defense"]
  | "healthcare" => ["healthcare"]
  | "agriculture" => ["agriculture"]
  | "telecom" => ["technology"]
  | "education" => ["education"]
  | "transportation" => ["infrastructure"]
  | "labor" => ["labor"]
  | "environment" => ["environment"]
  | _ => []

/-- `_is_industry_related`. -/
def isIndustryRelated (industry : String) (billCategories : List String) : Bool :=
  (industryCategoryMap industry).any (fun c => billCategories.contains c)

/-- One per-donor donation entry collected per industry. -/
structure DonEntry where
  donor : String
  amount : ℚ
  dtype : String
  deriving DecidableEq, Repr

/-- The per-industry accumulator of `industry_donations`. -/
structure IndEntry where
  total : ℚ
  donors : List String
  donations : List DonEntry
  deriving DecidableEq, Repr

/-- Update an insertion-ordered association list: apply `upd` to an existing
entry of key `k`, or append `(k, init)` — this models the
`if industry not in industry_donations` pattern on a Python dict. -/
def updateAssoc (m : List (String × IndEntry)) (k : String)
    (upd : IndEntry → IndEntry) (init : IndEntry) : List (String × IndEntry) :=
  match m with
  | [] => [(k, init)]
  | (k2, e) :: rest =>
      if k2 == k then (k2, upd e) :: rest
      else (k2, e) :: updateAssoc rest k upd init

/-- Fold step for the `topDonors` loop of `calculate_influence_score`. -/
def addDonorToIndustries (cfg : InfluenceConfig)
    (m : List (String × IndEntry)) (donor : Donor) : List (String × IndEntry) :=
  let industry := categorizeDonationIndustry cfg donor.name donor.industry
  let entry : DonEntry := ⟨donor.name, donor.amount, donor.dtype⟩
  updateAssoc m industry
    (fun e =>
      { total := e.total + donor.amount
        donors := e.donors ++ [donor.name]
        donations := e.donations ++ [entry] })
    { total := donor.amount, donors := [donor.name], donations := [entry] }

/-- Fold step for the `topIndustries` loop: a fresh key gets total only
(empty donor and donation lists); an existing key only accumulates total. -/
def addIndustryContribToIndustries (cfg : InfluenceConfig)
    (m : List (String × IndEntry)) (ic : IndustryContribution) :
    List (String × IndEntry) :=
  let industry := categorizeDonationIndustry cfg "" (some ic.industry)
  updateAssoc m industry
    (fun e => { e with total := e.total + ic.amount })
    { total := ic.amount, donors := [], donations := [] }

/-- The `industry_donations` dict after both aggregation loops. -/
def aggregateIndustryDonations (cfg : InfluenceConfig) (dd : DonationsData) :
    List (String × IndEntry) :=
  let m1 := dd.topDonors.foldl (addDonorToIndustries cfg) []
  dd.topIndustries.foldl (addIndustryContribToIndustries cfg) m1

/-- Flatten the yearly vote snapshots in iteration order. -/
def flatVotes (votesData : List VoteRecord) : List Vote :=
  (votesData.map (fun r => r.votes)).flatten

/-- `_get_donation_days_before_vote`: placeholder policy of the source —
any single donation entry above $10,000 yields an assumed 7-day gap; the
vote date argument is unused there. -/
def getDonationDaysBeforeVote (donations : List DonEntry) : Option ℕ :=
  match donations.find? (fun d => decide (d.amount > 10000)) with
  | some _ => some 7
  | none => none

/-! ### ISO date arithmetic

`calculate_influence_score` computes the reported donation date as
`datetime.fromisoformat(vote_date) - timedelta(days=days_diff)` truncated
to `YYYY-MM-DD`.  We embed proper civil-calendar conversion on natural
numbers (era-based algorithm); a string the source would raise on
(malformed ISO input, a programmer error per the error-handling design)
is returned unchanged. -/

/-- Days since the civil epoch 0000-03-01, valid for positive years. -/
def daysFromCivilN (y m d : ℕ) : ℕ :=
  let y2 := if m ≤ 2 then y - 1 else y
  let era := y2 / 400
  let yoe := y2 % 400
  let mp := (m + 9) % 12
  let doy := (153 * mp + 2) / 5 + d - 1
  let doe := yoe * 365 + yoe / 4 - yoe / 100 + doy
  era * 146097 + doe

/-- Inverse of `daysFromCivilN`. -/
def civilFromDaysN (n : ℕ) : ℕ × ℕ × ℕ :=
  let era := n / 146097
  let doe := n % 146097
  let yoe := (doe - doe / 1460 + doe / 36524 - doe / 146096) / 365
  let y := yoe + era * 400
  let doy := doe - (365 * yoe + yoe / 4 - yoe / 100)
  let mp := (5 * doy + 2) / 153
  let d := doy - (153 * mp + 2) / 5 + 1
  let m := if mp < 10 then mp + 3 else mp - 9
  (if m ≤ 2 then y + 1 else y, m, d)

/-- Zero-pad to two digits. -/
def pad2 (n : ℕ) : String := if n < 10 then "0" ++ toString n else toString n

/-- Zero-pad to four digits. -/
def pad4 (n : ℕ) : String :=
  if n < 10 then "000" ++ toString n
  else if n < 100 then "00" ++ toString n
  else if n < 1000 then "0" ++ toString n
  else toString n

/-- Subtract `k` days from an ISO `YYYY-MM-DD` date string. -/
def isoMinusDays (s : String) (k : ℕ) : String :=
  match s.splitOn "-" with
  | [ys, ms, ds] =>
      match ys.toNat?, ms.toNat?, ds.toNat? with
      | some y, some m, some d =>
          let n := daysFromCivilN y m d
          let c := civilFromDaysN (n - k)
          pad4 c.1 ++ "-" ++ pad2 c.2.1 ++ "-" ++ pad2 c.2.2
      | _, _, _ => s
  | _ => s

/-- The suspicious-timing flags one industry entry contributes: one flag
per related favorable vote with a truthy date, provided some donation
entry of the industry exceeds $10,000. -/
def industryTimingFlags (cfg : InfluenceConfig) (industry : String)
    (entry : IndEntry) (votesData : List VoteRecord) : List InfluenceRedFlag :=
  (flatVotes votesData).filterMap fun v =>
    let cats := categorizeBill cfg v.title v.billSummary
    if isIndustryRelated industry cats &&
        isVoteFavorableToIndustry v.vote cats industry &&
        !(v.date == "") then
      match getDonationDaysBeforeVote entry.donations with
      | some daysDiff =>
          some
            { rtype := "suspicious_timing"
              donationDate := isoMinusDays v.date daysDiff
              donationAmount := entry.total
              donor :=
                match entry.donors with
                | [] => industry ++ " interests"
                | d :: _ => d
              voteDate := v.date
              voteDescription := v.title
              daysBetween := daysDiff }
      | none => none
    else none

/-- Votes whose categorized bill categories intersect the industry's
relevance set. -/
def industryRelatedVotes (cfg : InfluenceConfig) (industry : String)
    (votesData : List VoteRecord) : List Vote :=
  (flatVotes votesData).filter
    (fun v => isIndustryRelated industry (categorizeBill cfg v.title v.billSummary))

/-- Related votes that are favorable to the industry. -/
def industryFavorableVotes (cfg : InfluenceConfig) (industry : String)
    (votesData : List VoteRecord) : List Vote :=
  (industryRelatedVotes cfg industry votesData).filter
    (fun v => isVoteFavorableToIndustry v.vote
      (categorizeBill cfg v.title v.billSummary) industry)

/-- Display name of an industry key. -/
def industryDisplayName (cfg : InfluenceConfig) (k : String) : String :=
  match cfg.industries.find? (fun d => d.key == k) with
  | some d => d.name
  | none => k

/-- One `industry_analysis` entry of `calculate_influence_score`. -/
def buildIndustryReport (cfg : InfluenceConfig) (votesData : List VoteRecord)
    (k : String) (entry : IndEntry) : IndustryReport :=
  let related := industryRelatedVotes cfg k votesData
  let favorable := industryFavorableVotes cfg k votesData
  { industry := industryDisplayName cfg k
    industryKey := k
    totalDonations := entry.total
    votingAlignment :=
      round1 (if related.length = 0 then 0
        else ((favorable.length : ℚ) / (related.length : ℚ)) * 100)
    suspiciousVotes := (industryTimingFlags cfg k entry votesData).length
    relatedVotesCount := related.length
    examples := (related.take 3).map
      (fun v => ⟨v.billNumber, v.title, v.vote, v.date⟩) }

/-- `_calculate_donation_concentration`: sum of the ten largest industry
totals (of the whole dict, "other" included) over the grand total. -/
def donationConcentration (m : List (String × IndEntry))
    (totalDonations : ℚ) : ℚ :=
  if totalDonations = 0 then 0
  else
    let sorted := keySort (fun p : String × IndEntry => -(p.2.total)) m
    let top10Total := ((sorted.take 10).map (fun p => p.2.total)).sum
    top10Total / totalDonations * 100

/-- The non-"other" entries of the aggregated dict, in insertion order. -/
def nonOtherEntries (m : List (String × IndEntry)) : List (String × IndEntry) :=
  m.filter (fun p => !(p.1 == "other"))

/-- All suspicious-timing flags of `calculate_influence_score`, in the
order the industry loop emits them. -/
def allTimingFlags (cfg : InfluenceConfig) (dd : DonationsData)
    (votesData : List VoteRecord) : List InfluenceRedFlag :=
  ((nonOtherEntries (aggregateIndustryDonations cfg dd)).map
    (fun p => industryTimingFlags cfg p.1 p.2 votesData)).flatten

/-- Vote count of the first yearly snapshot — the denominator of the
suspicious-timing rate. -/
def firstYearVoteCount (votesData : List VoteRecord) : ℕ :=
  match votesData with
  | [] => 0
  | r :: _ => r.votes.length

/-- The ranked industry breakdown kept for reporting: all non-"other"
industry entries, sorted by total donations descending (stable), top ten
kept. -/
def topIndustriesOf (cfg : InfluenceConfig) (dd : DonationsData)
    (votesData : List VoteRecord) : List IndustryReport :=
  (keySort (fun r : IndustryReport => -r.totalDonations)
    ((nonOtherEntries (aggregateIndustryDonations cfg dd)).map
      (fun p => buildIndustryReport cfg votesData p.1 p.2))).take 10

/-- `avg_voting_alignment`: mean of the reported top industries' (rounded)
alignment percentages, 0 when there are none. -/
def avgAlignmentOf (cfg : InfluenceConfig) (dd : DonationsData)
    (votesData : List VoteRecord) : ℚ :=
  if (topIndustriesOf cfg dd votesData).isEmpty then 0
  else ((topIndustriesOf cfg dd votesData).map (fun r => r.votingAlignment)).sum /
    ((topIndustriesOf cfg dd votesData).length : ℚ)

/-- `suspicious_timing_rate`: generated timing flags over the first yearly
snapshot's vote count, 0 when that snapshot is absent or empty. -/
def timingRateOf (cfg : InfluenceConfig) (dd : DonationsData)
    (votesData : List VoteRecord) : ℚ :=
  match votesData with
  | [] => 0
  | r :: _ =>
      if r.votes.isEmpty then 0
      else ((allTimingFlags cfg dd votesData).length : ℚ) /
        (r.votes.length : ℚ) * 100

/-- The unrounded influence score: concentration 0.3, alignment 0.4,
timing 0.3. -/
def influenceScoreRawOf (cfg : InfluenceConfig) (dd : DonationsData)
    (votesData : List VoteRecord) : ℚ :=
  donationConcentration (aggregateIndustryDonations cfg dd)
      dd.summary.totalRaised * (3 / 10) +
    avgAlignmentOf cfg dd votesData * (4 / 10) +
    timingRateOf cfg dd votesData * (3 / 10)

/-- `calculate_influence_score`. -/
def calculateInfluenceScore (cfg : InfluenceConfig) (officialId : String)
    (dd : DonationsData) (votesData : List VoteRecord) : InfluenceAnalysis :=
  { officialId := officialId
    influenceScore := round1 (influenceScoreRawOf cfg dd votesData)
    topIndustries := topIndustriesOf cfg dd votesData
    redFlags := (keySort (fun rf : InfluenceRedFlag => (rf.daysBetween : ℚ))
      (allTimingFlags cfg dd votesData)).take 20
    donationConcentration := round1 (donationConcentration
      (aggregateIndustryDonations cfg dd) dd.summary.totalRaised)
    avgVotingAlignment := round1 (avgAlignmentOf cfg dd votesData)
    suspiciousTimingRate := round1 (timingRateOf cfg dd votesData)
    totalDonationsAnalyzed := dd.summary.totalRaised
    totalVotesAnalyzed := (votesData.map (fun r => r.votes.length)).sum }

/-! ### Facts about the industry aggregation -/

/-- Sum of all per-industry totals of the aggregation dict. -/
def sumTotals (m : List (String × IndEntry)) : ℚ :=
  (m.map (fun p => p.2.total)).sum

/-- Lookup in the aggregation dict. -/
def lookupEntry (m : List (String × IndEntry)) (k : String) : Option IndEntry :=
  match m.find? (fun p => p.1 == k) with
  | some p => some p.2
  | none => none

theorem sumTotals_updateAssoc (m : List (String × IndEntry)) (k : String)
    (upd : IndEntry → IndEntry) (init : IndEntry) (a : ℚ)
    (hupd : ∀ e, (upd e).total = e.total + a) (hinit : init.total = a) :
    sumTotals (updateAssoc m k upd init) = sumTotals m + a := by
  induction m with
  | nil => simp [updateAssoc, sumTotals, hinit]
  | cons p rest ih =>
      rcases p with ⟨k2, e⟩
      simp only [updateAssoc]
      split
      · simp only [sumTotals, List.map_cons, List.sum_cons, hupd]
        ring
      · simp only [sumTotals, List.map_cons, List.sum_cons] at ih ⊢
        rw [ih]
        ring

theorem nonneg_updateAssoc (m : List (String × IndEntry)) (k : String)
    (upd : IndEntry → IndEntry) (init : IndEntry) (a : ℚ)
    (hupd : ∀ e, (upd e).total = e.total + a) (hinit : init.total = a)
    (ha : 0 ≤ a) (hm : ∀ p ∈ m, 0 ≤ p.2.total) :
    ∀ p ∈ updateAssoc m k upd init, 0 ≤ p.2.total := by
  induction m with
  | nil =>
      intro p hp
      rcases List.mem_singleton.mp hp with rfl
      simpa [hinit] using ha
  | cons q rest ih =>
      rcases q with ⟨k2, e⟩
      intro p hp
      simp only [updateAssoc] at hp
      split at hp
      · rcases List.mem_cons.mp hp with rfl | hp2
        · have he : 0 ≤ e.total := hm (k2, e) (List.mem_cons_self _ _)
          simp only [hupd]
          linarith
        · exact hm p (List.mem_cons_of_mem _ hp2)
      · rcases List.mem_cons.mp hp with rfl | hp2
        · exact hm (k2, e) (List.mem_cons_self _ _)
        · exact ih (fun q hq => hm q (List.mem_cons_of_mem _ hq)) _ hp2

theorem lookupEntry_updateAssoc_ne (m : List (String × IndEntry))
    (j k : String) (upd : IndEntry → IndEntry) (init : IndEntry)
    (hne : j ≠ k) :
    lookupEntry (updateAssoc m j upd init) k = lookupEntry m k := by
  induction m with
  | nil =>
      simp only [updateAssoc, lookupEntry, List.find?]
      have : (j == k) = false := beq_eq_false_iff_ne.mpr hne
      simp [this]
  | cons q rest ih =>
      rcases q with ⟨k2, e⟩
      simp only [updateAssoc]
      split
      · rename_i hk2
        have hk2e : k2 = j := by simpa using hk2
        have : (k2 == k) = false := beq_eq_false_iff_ne.mpr (hk2e ▸ hne)
        simp [lookupEntry, List.find?, this]
      · by_cases hkk : (k2 == k) = true
        · simp [lookupEntry, List.find?, hkk]
        · have : (k2 == k) = false := Bool.eq_false_iff.mpr hkk
          simp only [lookupEntry, List.find?, this] at ih ⊢
          exact ih

theorem lookupEntry_updateAssoc_self (m : List (String × IndEntry))
    (k : String) (upd : IndEntry → IndEntry) (init : IndEntry) :
    lookupEntry (updateAssoc m k upd init) k =
      some (match lookupEntry m k with
            | some e => upd e
            | none => init) := by
  induction m with
  | nil => simp [updateAssoc, lookupEntry, List.find?]
  | cons q rest ih =>
      rcases q with ⟨k2, e⟩
      simp only [updateAssoc]
      split
      · rename_i hk2
        simp [lookupEntry, List.find?, hk2]
      · rename_i hk2
        have : (k2 == k) = false := by
          cases hc : (k2 == k) with
          | true => exact absurd hc hk2
          | false => rfl
        simp only [lookupEntry, List.find?, this] at ih ⊢
        exact ih

theorem sumTotals_addDonor (cfg : InfluenceConfig)
    (m : List (String × IndEntry)) (d : Donor) :
    sumTotals (addDonorToIndustries cfg m d) = sumTotals m + d.amount := by
  exact sumTotals_updateAssoc m _ _ _ d.amount (fun e => rfl) rfl

theorem sumTotals_addIndustryContrib (cfg : InfluenceConfig)
    (m : List (String × IndEntry)) (ic : IndustryContribution) :
    sumTotals (addIndustryContribToIndustries cfg m ic) =
      sumTotals m + ic.amount := by
  exact sumTotals_updateAssoc m _ _ _ ic.amount (fun e => rfl) rfl

theorem sumTotals_donors_fold (cfg : InfluenceConfig) (donors : List Donor) :
    ∀ m, sumTotals (donors.foldl (addDonorToIndustries cfg) m) =
      sumTotals m + (donors.map (fun d => d.amount)).sum := by
  induction donors with
  | nil => intro m; simp
  | cons d rest ih =>
      intro m
      simp only [List.foldl_cons, List.map_cons, List.sum_cons]
      rw [ih, sumTotals_addDonor]
      ring

theorem sumTotals_industries_fold (cfg : InfluenceConfig)
    (ics : List IndustryContribution) :
    ∀ m, sumTotals (ics.foldl (addIndustryContribToIndustries cfg) m) =
      sumTotals m + (ics.map (fun i => i.amount)).sum := by
  induction ics with
  | nil => intro m; simp
  | cons ic rest ih =>
      intro m
      simp only [List.foldl_cons, List.map_cons, List.sum_cons]
      rw [ih, sumTotals_addIndustryContrib]
      ring

theorem sumTotals_aggregate (cfg : InfluenceConfig) (dd : DonationsData) :
    sumTotals (aggregateIndustryDonations cfg dd) =
      (dd.topDonors.map (fun d => d.amount)).sum +
        (dd.topIndustries.map (fun i => i.amount)).sum := by
  unfold aggregateIndustryDonations
  rw [sumTotals_industries_fold, sumTotals_donors_fold]
  simp [sumTotals]

theorem nonneg_donors_fold (cfg : InfluenceConfig) (donors : List Donor)
    (hd : ∀ d ∈ donors, 0 ≤ d.amount) :
    ∀ m, (∀ p ∈ m, 0 ≤ p.2.total) →
      ∀ p ∈ donors.foldl (addDonorToIndustries cfg) m, 0 ≤ p.2.total := by
  induction donors with
  | nil => intro m hm; exact hm
  | cons d rest ih =>
      intro m hm
      simp only [List.foldl_cons]
      refine ih (fun x hx => hd x (List.mem_cons_of_mem _ hx)) _ ?_
      exact nonneg_updateAssoc m _ _ _ d.amount (fun e => rfl) rfl
        (hd d (List.mem_cons_self _ _)) hm

theorem nonneg_industries_fold (cfg : InfluenceConfig)
    (ics : List IndustryContribution) (hi : ∀ i ∈ ics, 0 ≤ i.amount) :
    ∀ m, (∀ p ∈ m, 0 ≤ p.2.total) →
      ∀ p ∈ ics.foldl (addIndustryContribToIndustries cfg) m, 0 ≤ p.2.total := by
  induction ics with
  | nil => intro m hm; exact hm
  | cons ic rest ih =>
      intro m hm
      simp only [List.foldl_cons]
      refine ih (fun x hx => hi x (List.mem_cons_of_mem _ hx)) _ ?_
      exact nonneg_updateAssoc m _ _ _ ic.amount (fun e => rfl) rfl
        (hi ic (List.mem_cons_self _ _)) hm

theorem nonneg_aggregate (cfg : InfluenceConfig) (dd : DonationsData)
    (hd : ∀ d ∈ dd.topDonors, 0 ≤ d.amount)
    (hi : ∀ i ∈ dd.topIndustries, 0 ≤ i.amount) :
    ∀ p ∈ aggregateIndustryDonations cfg dd, 0 ≤ p.2.total := by
  unfold aggregateIndustryDonations
  exact nonneg_industries_fold cfg _ hi _
    (nonneg_donors_fold cfg _ hd [] (by simp))

theorem lookup_donors_fold_none (cfg : InfluenceConfig) (k : String)
    (donors : List Donor)
    (hnod : ∀ d ∈ donors, categorizeDonationIndustry cfg d.name d.industry ≠ k) :
    ∀ m, lookupEntry m k = none →
      lookupEntry (donors.foldl (addDonorToIndustries cfg) m) k = none := by
  induction donors with
  | nil => intro m hm; exact hm
  | cons d rest ih =>
      intro m hm
      simp only [List.foldl_cons]
      refine ih (fun x hx => hnod x (List.mem_cons_of_mem _ hx)) _ ?_
      unfold addDonorToIndustries
      rw [lookupEntry_updateAssoc_ne _ _ _ _ _ (hnod d (List.mem_cons_self _ _))]
      exact hm

theorem industries_fold_donations_inv (cfg : InfluenceConfig) (k : String)
    (ics : List IndustryContribution) :
    ∀ m, (∀ e, lookupEntry m k = some e → e.donations = []) →
      ∀ e, lookupEntry (ics.foldl (addIndustryContribToIndustries cfg) m) k =
        some e → e.donations = [] := by
  induction ics with
  | nil => intro m hm; exact hm
  | cons ic rest ih =>
      intro m hm
      simp only [List.foldl_cons]
      refine ih _ ?_
      intro e he
      by_cases hkk : categorizeDonationIndustry cfg "" (some ic.industry) = k
      · unfold addIndustryContribToIndustries at he
        rw [hkk, lookupEntry_updateAssoc_self] at he
        rcases Option.some_inj.mp he with rfl
        split
        · rename_i e2 heq
          have := hm e2 heq
          simpa using this
        · rfl
      · unfold addIndustryContribToIndustries at he
        rw [lookupEntry_updateAssoc_ne _ _ _ _ _ hkk] at he
        exact hm e he

/-- C10: an industry whose donation total comes only from the
`topIndustries` aggregate list (no top donor categorized into it) has an
empty per-donor donation list in the aggregation dict, and therefore
produces no suspicious-timing flag, however large its amount — the timing
check scans only the per-donor entries for a single amount above $10,000. -/
theorem aggregate_only_industry_no_timing_flags (cfg : InfluenceConfig)
    (dd : DonationsData) (votesData : List VoteRecord) (k : String)
    (entry : IndEntry)
    (hnod : ∀ d ∈ dd.topDonors,
      categorizeDonationIndustry cfg d.name d.industry ≠ k)
    (hent : lookupEntry (aggregateIndustryDonations cfg dd) k = some entry) :
    entry.donations = [] ∧ industryTimingFlags cfg k entry votesData = [] := by
  have hdon : entry.donations = [] := by
    refine industries_fold_donations_inv cfg k dd.topIndustries _ ?_ entry hent
    intro e he
    rw [lookup_donors_fold_none cfg k dd.topDonors hnod []
      (by simp [lookupEntry, List.find?])] at he
    exact absurd he (by simp)
  refine ⟨hdon, ?_⟩
  apply List.filterMap_eq_nil_iff.mpr
  intro v hv
  have hnone : getDonationDaysBeforeVote entry.donations = none := by
    rw [hdon]
    rfl
  simp only [hnone]
  split <;> rfl

theorem round1_bounds_100 {x : ℚ} (h0 : 0 ≤ x) (h1 : x ≤ 100) :
    0 ≤ round1 x ∧ round1 x ≤ 100 := by
  have h2 := round1_nonneg h0
  have h3 : round1 x ≤ ((100 : ℤ) : ℚ) := round1_le_of_le 100 (by exact_mod_cast h1)
  exact ⟨h2, by exact_mod_cast h3⟩

theorem mean_bounds (l : List ℚ) (hne : l ≠ [])
    (hb : ∀ x ∈ l, 0 ≤ x ∧ x ≤ 100) :
    0 ≤ l.sum / (l.length : ℚ) ∧ l.sum / (l.length : ℚ) ≤ 100 := by
  have hlen0 : 0 < l.length := List.length_pos.mpr hne
  have hlen : 0 < (l.length : ℚ) := by exact_mod_cast hlen0
  have hsum0 : 0 ≤ l.sum := List.sum_nonneg (fun x hx => (hb x hx).1)
  have hsum100 : l.sum ≤ (l.length : ℚ) * 100 := by
    have := List.sum_le_card_nsmul l 100 (fun x hx => (hb x hx).2)
    simpa [nsmul_eq_mul] using this
  constructor
  · exact div_nonneg hsum0 (le_of_lt hlen)
  · rw [div_le_iff₀ hlen]
    linarith

theorem buildIndustryReport_alignment_bounds (cfg : InfluenceConfig)
    (votesData : List VoteRecord) (k : String) (entry : IndEntry) :
    0 ≤ (buildIndustryReport cfg votesData k entry).votingAlignment ∧
      (buildIndustryReport cfg votesData k entry).votingAlignment ≤ 100 := by
  have hA : (buildIndustryReport cfg votesData k entry).votingAlignment =
      round1 (if (industryRelatedVotes cfg k votesData).length = 0 then 0
        else (((industryFavorableVotes cfg k votesData).length : ℚ) /
          ((industryRelatedVotes cfg k votesData).length : ℚ)) * 100) := rfl
  rw [hA]
  apply round1_bounds_100
  · split
    · norm_num
    · positivity
  · split
    · norm_num
    · rename_i hne
      have hle : (industryFavorableVotes cfg k votesData).length ≤
          (industryRelatedVotes cfg k votesData).length :=
        List.length_filter_le _ _
      have hpos : 0 < ((industryRelatedVotes cfg k votesData).length : ℚ) := by
        have : 0 < (industryRelatedVotes cfg k votesData).length :=
          Nat.pos_of_ne_zero hne
        exact_mod_cast this
      have hle2 : ((industryFavorableVotes cfg k votesData).length : ℚ) ≤
          ((industryRelatedVotes cfg k votesData).length : ℚ) := by exact_mod_cast hle
      have hdiv : ((industryFavorableVotes cfg k votesData).length : ℚ) /
          ((industryRelatedVotes cfg k votesData).length : ℚ) ≤ 1 :=
        (div_le_one hpos).mpr hle2
      nlinarith [hdiv]

theorem donationConcentration_nonneg (m : List (String × IndEntry)) (total : ℚ)
    (hm : ∀ p ∈ m, 0 ≤ p.2.total) (ht : 0 ≤ total) :
    0 ≤ donationConcentration m total := by
  unfold donationConcentration
  split
  · norm_num
  · have htop : 0 ≤ (((keySort (fun p : String × IndEntry => -(p.2.total)) m).take 10).map
        (fun p => p.2.total)).sum := by
      apply List.sum_nonneg
      intro x hx
      rcases List.mem_map.mp hx with ⟨p, hp, rfl⟩
      exact hm p ((keySort_perm _ m).mem_iff.mp (List.mem_of_mem_take hp))
    exact mul_nonneg (div_nonneg htop ht) (by norm_num)

theorem donationConcentration_le_100 (m : List (String × IndEntry)) (total : ℚ)
    (hm : ∀ p ∈ m, 0 ≤ p.2.total) (ht : 0 ≤ total)
    (hsum : sumTotals m ≤ total) :
    donationConcentration m total ≤ 100 := by
  unfold donationConcentration
  split
  · norm_num
  · rename_i hne
    have htpos : 0 < total := lt_of_le_of_ne ht (Ne.symm hne)
    have hmt : (((keySort (fun p : String × IndEntry => -(p.2.total)) m).take 10).map
        (fun p => p.2.total)) =
        ((keySort (fun p : String × IndEntry => -(p.2.total)) m).map
          (fun p => p.2.total)).take 10 := by
      rw [List.map_take]
    have hsplit := List.sum_take_add_sum_drop
      ((keySort (fun p : String × IndEntry => -(p.2.total)) m).map
        (fun p => p.2.total)) 10
    have hdrop : 0 ≤ (((keySort (fun p : String × IndEntry => -(p.2.total)) m).map
        (fun p => p.2.total)).drop 10).sum := by
      apply List.sum_nonneg
      intro x hx
      have hx2 := List.mem_of_mem_drop hx
      rcases List.mem_map.mp hx2 with ⟨p, hp, rfl⟩
      exact hm p ((keySort_perm _ m).mem_iff.mp hp)
    have hperm : ((keySort (fun p : String × IndEntry => -(p.2.total)) m).map
        (fun p => p.2.total)).sum = sumTotals m :=
      ((keySort_perm (fun p : String × IndEntry => -(p.2.total)) m).map
        (fun p => p.2.total)).sum_eq
    have htople : (((keySort (fun p : String × IndEntry => -(p.2.total)) m).take 10).map
        (fun p => p.2.total)).sum ≤ total := by
      rw [hmt]
      have : (((keySort (fun p : String × IndEntry => -(p.2.total)) m).map
          (fun p => p.2.total)).take 10).sum ≤ sumTotals m := by
        rw [← hperm]
        linarith
      linarith
    have hdiv : (((keySort (fun p : String × IndEntry => -(p.2.total)) m).take 10).map
        (fun p => p.2.total)).sum / total ≤ 1 :=
      (div_le_one htpos).mpr htople
    nlinarith [hdiv]

theorem topIndustriesOf_alignment_bounds (cfg : InfluenceConfig)
    (dd : DonationsData) (votesData : List VoteRecord) :
    ∀ r ∈ topIndustriesOf cfg dd votesData,
      0 ≤ r.votingAlignment ∧ r.votingAlignment ≤ 100 := by
  intro r hr
  have hr2 := List.mem_of_mem_take hr
  have hr3 := (keySort_perm (fun r : IndustryReport => -r.totalDonations) _).mem_iff.mp hr2
  rcases List.mem_map.mp hr3 with ⟨p, _, rfl⟩
  exact buildIndustryReport_alignment_bounds cfg votesData p.1 p.2

theorem avgAlignmentOf_bounds (cfg : InfluenceConfig) (dd : DonationsData)
    (votesData : List VoteRecord) :
    0 ≤ avgAlignmentOf cfg dd votesData ∧ avgAlignmentOf cfg dd votesData ≤ 100 := by
  unfold avgAlignmentOf
  split
  · norm_num
  · rename_i hne
    have hne2 : topIndustriesOf cfg dd votesData ≠ [] := by
      intro hc
      rw [hc] at hne
      simp at hne
    have hmap : (topIndustriesOf cfg dd votesData).map (fun r => r.votingAlignment) ≠ [] := by
      simpa using hne2
    have hb : ∀ x ∈ (topIndustriesOf cfg dd votesData).map (fun r => r.votingAlignment),
        0 ≤ x ∧ x ≤ 100 := by
      intro x hx
      rcases List.mem_map.mp hx with ⟨r, hr, rfl⟩
      exact topIndustriesOf_alignment_bounds cfg dd votesData r hr
    have := mean_bounds _ hmap hb
    rwa [List.length_map] at this

theorem timingRateOf_nonneg (cfg : InfluenceConfig) (dd : DonationsData)
    (votesData : List VoteRecord) : 0 ≤ timingRateOf cfg dd votesData := by
  cases votesData with
  | nil => simp [timingRateOf]
  | cons r rest =>
      simp only [timingRateOf]
      split
      · norm_num
      · positivity

theorem timingRateOf_le_100 (cfg : InfluenceConfig) (dd : DonationsData)
    (votesData : List VoteRecord)
    (h : (allTimingFlags cfg dd votesData).length ≤ firstYearVoteCount votesData) :
    timingRateOf cfg dd votesData ≤ 100 := by
  cases votesData with
  | nil => simp [timingRateOf]
  | cons r rest =>
      simp only [timingRateOf]
      split
      · norm_num
      · rename_i hemp
        have hne : r.votes ≠ [] := by
          intro hc
          exact hemp (by simp [hc])
        have hlen : 0 < r.votes.length := List.length_pos.mpr hne
        have hlenq : 0 < (r.votes.length : ℚ) := by exact_mod_cast hlen
        have hfy : firstYearVoteCount (r :: rest) = r.votes.length := rfl
        have hle : ((allTimingFlags cfg dd (r :: rest)).length : ℚ) ≤
            (r.votes.length : ℚ) := by
          rw [hfy] at h
          exact_mod_cast h
        have hdiv : ((allTimingFlags cfg dd (r :: rest)).length : ℚ) /
            (r.votes.length : ℚ) ≤ 1 := (div_le_one hlenq).mpr hle
        nlinarith [hdiv]

/-- C2 (amended): with non-negative donation amounts and totals, every
influence sub-metric is non-negative, each per-industry voting alignment
and their average lie in [0,100], and the influence score is non-negative.
The donation concentration is bounded by 100 only under the extra
consistency assumption that the donor and industry amounts sum to at most
`totalRaised` (the source adds `topDonors` and `topIndustries` amounts
into the same industry totals and divides by the separate `totalRaised`
field), and the suspicious-timing rate is bounded by 100 only when the
number of generated timing flags does not exceed the first snapshot's
vote count; under both assumptions the influence score lies in [0,100]. -/
theorem influence_scores_bounds (cfg : InfluenceConfig) (oid : String)
    (dd : DonationsData) (votesData : List VoteRecord)
    (hdon : ∀ d ∈ dd.topDonors, 0 ≤ d.amount)
    (hind : ∀ i ∈ dd.topIndustries, 0 ≤ i.amount)
    (htot : 0 ≤ dd.summary.totalRaised) :
    (0 ≤ (calculateInfluenceScore cfg oid dd votesData).donationConcentration ∧
     0 ≤ (calculateInfluenceScore cfg oid dd votesData).suspiciousTimingRate ∧
     0 ≤ (calculateInfluenceScore cfg oid dd votesData).avgVotingAlignment ∧
     (calculateInfluenceScore cfg oid dd votesData).avgVotingAlignment ≤ 100 ∧
     0 ≤ (calculateInfluenceScore cfg oid dd votesData).influenceScore ∧
     (∀ r ∈ (calculateInfluenceScore cfg oid dd votesData).topIndustries,
       0 ≤ r.votingAlignment ∧ r.votingAlignment ≤ 100)) ∧
    ((dd.topDonors.map (fun d => d.amount)).sum +
        (dd.topIndustries.map (fun i => i.amount)).sum ≤
          dd.summary.totalRaised →
      (calculateInfluenceScore cfg oid dd votesData).donationConcentration ≤ 100) ∧
    ((allTimingFlags cfg dd votesData).length ≤ firstYearVoteCount votesData →
      (calculateInfluenceScore cfg oid dd votesData).suspiciousTimingRate ≤ 100) ∧
    ((dd.topDonors.map (fun d => d.amount)).sum +
        (dd.topIndustries.map (fun i => i.amount)).sum ≤
          dd.summary.totalRaised →
      (allTimingFlags cfg dd votesData).length ≤ firstYearVoteCount votesData →
      (calculateInfluenceScore cfg oid dd votesData).influenceScore ≤ 100) := by
  have hmn : ∀ p ∈ aggregateIndustryDonations cfg dd, 0 ≤ p.2.total :=
    nonneg_aggregate cfg dd hdon hind
  have hdc0 : 0 ≤ donationConcentration (aggregateIndustryDonations cfg dd)
      dd.summary.totalRaised := donationConcentration_nonneg _ _ hmn htot
  have hava := avgAlignmentOf_bounds cfg dd votesData
  have hstr0 := timingRateOf_nonneg cfg dd votesData
  have hscore0 : 0 ≤ influenceScoreRawOf cfg dd votesData := by
    unfold influenceScoreRawOf
    have h1 := hava.1
    nlinarith [hdc0, hstr0]
  refine ⟨⟨round1_nonneg hdc0, round1_nonneg hstr0, (round1_bounds_100 hava.1 hava.2).1,
      (round1_bounds_100 hava.1 hava.2).2, round1_nonneg hscore0,
      fun r hr => topIndustriesOf_alignment_bounds cfg dd votesData r hr⟩,
    ?_, ?_, ?_⟩
  · intro hsum
    have hsum2 : sumTotals (aggregateIndustryDonations cfg dd) ≤
        dd.summary.totalRaised := by
      rw [sumTotals_aggregate]
      exact hsum
    have := donationConcentration_le_100 _ _ hmn htot hsum2
    exact (round1_bounds_100 hdc0 this).2
  · intro hcnt
    exact (round1_bounds_100 hstr0 (timingRateOf_le_100 cfg dd votesData hcnt)).2
  · intro hsum hcnt
    have hsum2 : sumTotals (aggregateIndustryDonations cfg dd) ≤
        dd.summary.totalRaised := by
      rw [sumTotals_aggregate]
      exact hsum
    have hdc100 := donationConcentration_le_100 _ _ hmn htot hsum2
    have hstr100 := timingRateOf_le_100 cfg dd votesData hcnt
    have hscore100 : influenceScoreRawOf cfg dd votesData ≤ 100 := by
      unfold influenceScoreRawOf
      nlinarith [hdc0, hdc100, hava.1, hava.2, hstr0, hstr100]
    exact (round1_bounds_100 hscore0 hscore100).2

/-- A small industry configuration with one industry and one bill category
(keyword tables are matched by substring containment). -/
def cfgEx : InfluenceConfig :=
  { industries := [⟨"pharmaceuticals", "Pharmaceuticals", ["pharma"]⟩]
    billCategories := [⟨"healthcare", ["health"]⟩] }

/-- A donation snapshot whose donor and industry lists double-count the
same money: 800 from the top-donor list and 800 from the top-industry
list, against a totalRaised of 1000.  All amounts are non-negative. -/
def ddConc : DonationsData :=
  { summary := ⟨1000, 0, 0⟩
    topDonors := [⟨"Pfizer Inc", 800, "corporate", some "Pharmaceutical"⟩]
    topIndustries := [⟨"Pharmaceutical", 800⟩] }

/-- Counterexample to C2 as stated: on a snapshot with only non-negative
amounts the donation-concentration sub-metric evaluates to 160, outside
[0,100], because the top-donor and top-industry amounts are both added to
the same industry total and divided by the separate totalRaised field. -/
theorem influence_concentration_exceeds_100_counterexample :
    (∀ d ∈ ddConc.topDonors, 0 ≤ d.amount) ∧
    (∀ i ∈ ddConc.topIndustries, 0 ≤ i.amount) ∧
    0 ≤ ddConc.summary.totalRaised ∧
    (calculateInfluenceScore cfgEx "o" ddConc []).donationConcentration = 160 ∧
    ¬ ((calculateInfluenceScore cfgEx "o" ddConc []).donationConcentration ≤ 100) := by
  have hc1 : categorizeDonationIndustry cfgEx "Pfizer Inc"
      (some "Pharmaceutical") = "pharmaceuticals" := by decide
  have hc2 : categorizeDonationIndustry cfgEx "" (some "Pharmaceutical") =
      "pharmaceuticals" := by decide
  have hagg : aggregateIndustryDonations cfgEx ddConc =
      [("pharmaceuticals",
        ⟨(800 : ℚ) + 800, ["Pfizer Inc"], [⟨"Pfizer Inc", 800, "corporate"⟩]⟩)] := by
    simp [aggregateIndustryDonations, addDonorToIndustries,
      addIndustryContribToIndustries, updateAssoc, hc1, hc2, ddConc]
  have hval : (calculateInfluenceScore cfgEx "o" ddConc []).donationConcentration = 160 := by
    show round1 (donationConcentration (aggregateIndustryDonations cfgEx ddConc)
      ddConc.summary.totalRaised) = 160
    rw [hagg]
    have hdc : donationConcentration
        [("pharmaceuticals",
          ⟨(800 : ℚ) + 800, ["Pfizer Inc"], [⟨"Pfizer Inc", 800, "corporate"⟩]⟩)]
        ddConc.summary.totalRaised = 160 := by
      simp [donationConcentration, keySort, keyInsert, ddConc]
      norm_num
    rw [hdc]
    have h := round1_intCast 160
    push_cast at h
    exact h
  refine ⟨?_, ?_, ?_, hval, ?_⟩
  · intro d hd
    simp [ddConc] at hd
    rw [hd]
    norm_num
  · intro i hi
    simp [ddConc] at hi
    rw [hi]
    norm_num
  · norm_num [ddConc]
  · rw [hval]
    norm_num

/-- Witness for the amended influence-bounds theorem at a concrete
snapshot. -/
theorem influence_scores_bounds_witness :
    0 ≤ (calculateInfluenceScore cfgEx "o" ddConc []).donationConcentration ∧
    0 ≤ (calculateInfluenceScore cfgEx "o" ddConc []).influenceScore :=
  ⟨(influence_scores_bounds cfgEx "o" ddConc []
      (by intro d hd; simp [ddConc] at hd; rw [hd]; norm_num)
      (by intro i hi; simp [ddConc] at hi; rw [hi]; norm_num)
      (by norm_num [ddConc])).1.1,
   (influence_scores_bounds cfgEx "o" ddConc []
      (by intro d hd; simp [ddConc] at hd; rw [hd]; norm_num)
      (by intro i hi; simp [ddConc] at hi; rw [hi]; norm_num)
      (by norm_num [ddConc])).1.2.2.2.2.1⟩

/-- A vote favorable to the pharmaceutical industry under `cfgEx`
(healthcare category, vote "no"). -/
def voteHealthNo : Vote :=
  ⟨"v1", "HB1", "Health Price Controls Act", "2024-03-01", "no", ""⟩

/-- A donation snapshot in which the pharmaceutical money appears only in
the top-industry aggregate list: its donor entry categorizes elsewhere. -/
def ddAggOnly : DonationsData :=
  { summary := ⟨100000, 0, 0⟩
    topDonors := [⟨"Acme Corp", 20000, "corporate", none⟩]
    topIndustries := [⟨"Pharmaceutical", 50000⟩] }

/-- Witness for the aggregate-only-industry theorem: the pharmaceutical
entry of `ddAggOnly` holds 50,000 with no per-donor entries, and emits no
timing flag even in the presence of a favorable related vote. -/
theorem aggregate_only_industry_no_timing_flags_witness :
    (IndEntry.mk 50000 [] []).donations = [] ∧
    industryTimingFlags cfgEx "pharmaceuticals" (IndEntry.mk 50000 [] [])
      [⟨[voteHealthNo]⟩] = [] :=
  aggregate_only_industry_no_timing_flags cfgEx ddAggOnly [⟨[voteHealthNo]⟩]
    "pharmaceuticals" (IndEntry.mk 50000 [] []) (by decide) (by decide)

/-! ## promise_service.py : full analysis -/

/-- One campaign promise of the promise snapshot. -/
structure PromiseItem where
  id : String
  text : String
  category : String
  source : String
  deriving DecidableEq, Repr

/-- The promise snapshot (`promises_data`). -/
structure PromisesData where
  items : List PromiseItem
  deriving DecidableEq, Repr

/-- The fixed `category_keywords` table of `_extract_keywords`. -/
def categoryKeywords (category : String) : List String :=
  match category with
  | "healthcare" =>
      ["healthcare", "health", "medical", "medicare", "medicaid", "insurance", "hospital"]
  | "economy" => ["economy", "tax", "jobs", "employment", "business", "income"]
  | "education" => ["education", "school", "student", "college", "teacher"]
  | "environment" =>
      ["environment", "climate", "clean", "pollution", "renewable", "energy"]
  | "immigration" => ["immigration", "border", "visa", "citizenship", "refugee"]
  | "defense" => ["defense", "military", "veteran", "armed forces"]
  | "infrastructure" =>
      ["infrastructure", "highway", "bridge", "broadband", "transportation"]
  | "justice" => ["justice", "prison", "police", "crime", "court"]
  | "labor" => ["labor", "worker", "wage", "union", "employment"]
  | _ => []

/-- The stop-list of `_extract_keywords`. -/
def stopWords : List String :=
  ["about", "would", "should", "their", "there", "where", "these", "those"]

/-- `_extract_keywords`: category keywords plus up to five words longer
than four characters from the promise text, excluding the stop-list. -/
def extractKeywords (promiseText category : String) : List String :=
  let textLower := toLowerStr promiseText
  let words := textLower.split Char.isWhitespace
  let importantWords := words.filter
    (fun w => decide (w.length > 4) && !(stopWords.contains w))
  categoryKeywords category ++ importantWords.take 5

/-- `_find_related_votes`: votes whose lower-cased title or summary
contains any keyword. -/
def findRelatedVotes (promiseText category : String)
    (votesData : List VoteRecord) : List Vote :=
  let keywords := extractKeywords promiseText category
  (flatVotes votesData).filter fun v =>
    keywords.any fun kw =>
      containsSub kw (toLowerStr v.title) || containsSub kw (toLowerStr v.billSummary)

/-- Positive stance indicators of `_check_vote_promise_alignment`. -/
def proIndicators : List String :=
  ["fight for", "support", "expand", "increase", "protect", "strengthen"]

/-- Negative stance indicators of `_check_vote_promise_alignment`. -/
def antiIndicators : List String :=
  ["fight against", "oppose", "reduce", "cut", "eliminate", "stop"]

/-- `_check_vote_promise_alignment`: classify one related vote against the
promise stance. -/
def checkVotePromiseAlignment (promiseText : String) (v : Vote) : String :=
  let voteValue := toLowerStr v.vote
  let promiseLower := toLowerStr promiseText
  let isPro := proIndicators.any (fun ind => containsSub ind promiseLower)
  let isAnti := antiIndicators.any (fun ind => containsSub ind promiseLower)
  if isPro && voteValue == "yes" then "supports"
  else if isPro && voteValue == "no" then "contradicts"
  else if isAnti && voteValue == "no" then "supports"
  else if isAnti && voteValue == "yes" then "contradicts"
  else "neutral"

/-- `_analyze_single_promise`. -/
def analyzeSinglePromise (promise : PromiseItem)
    (votesData : List VoteRecord) : PromiseResult :=
  let category := toLowerStr promise.category
  let related := findRelatedVotes promise.text category votesData
  let supporting := related.filter
    (fun v => checkVotePromiseAlignment promise.text v == "supports")
  let contradicting := related.filter
    (fun v => checkVotePromiseAlignment promise.text v == "contradicts")
  let status := determinePromiseStatus supporting contradicting
  let evidence :=
    (contradicting.take 10).map
      (fun v => EvidenceItem.mk v.id v.title v.billNumber v.vote v.date true) ++
    (supporting.take 5).map
      (fun v => EvidenceItem.mk v.id v.title v.billNumber v.vote v.date false)
  { promiseId := promise.id
    category := category
    promiseText := promise.text
    promiseDate := promise.source
    sourceUrl := promise.source
    status := status
    evidence := evidence
    timesVotedAgainst := contradicting.length
    timesVotedFor := supporting.length }

/-- `analyze_promise_keeping`. -/
def analyzePromiseKeeping (officialId _officialName : String)
    (promisesData : PromisesData) (votesData : List VoteRecord) :
    PromiseAnalysis :=
  if promisesData.items.isEmpty then
    { officialId := officialId
      summary := ⟨0, 0, 0, 0, 0, 0⟩
      promises := [] }
  else
    let analyzed := promisesData.items.map
      (fun p => analyzeSinglePromise p votesData)
    let kept := analyzed.countP (fun p => p.status == "kept")
    let broken := analyzed.countP (fun p => p.status == "broken")
    let inProgress := analyzed.countP (fun p => p.status == "in_progress")
    let notAddressed := analyzed.countP (fun p => p.status == "not_addressed")
    let total := analyzed.length
    let score : ℚ := if total > 0 then (kept : ℚ) / (total : ℚ) * 100 else 0
    { officialId := officialId
      summary := ⟨total, kept, broken, inProgress, notAddressed, round1 score⟩
      promises := keySort (fun p => -((p.timesVotedAgainst : ℚ))) analyzed }

/-! ## accountability_score_service.py : component scores and aggregation -/

/-- `_calculate_promise_keeping_score`: the summary score, or the 50.0
neutral default when the promise analysis is absent. -/
def calcPromiseKeepingScore (pa : Option PromiseAnalysis) : ℚ :=
  match pa with
  | none => 50
  | some a => a.summary.promiseKeepingScore

/-- The red-flag types that deduct from the transparency score. -/
def transparencyFlagTypes : List String :=
  ["low_transparency", "low_accessibility", "no_town_halls"]

/-- Deduction one red flag contributes to the transparency score. -/
def flagDeduction (f : RedFlag) : ℚ :=
  if transparencyFlagTypes.contains f.ftype then
    if f.severity == "critical" then 20
    else if f.severity == "high" then 15
    else if f.severity == "medium" then 10
    else 5
  else 0

/-- `_calculate_transparency_score`: 100 minus flag and missing-contact
deductions, floored at 0. -/
def calcTransparencyScore (off : OfficialData) (rf : Option RedFlagsReport) : ℚ :=
  let flagDeductions : ℚ :=
    match rf with
    | none => 0
    | some r => (r.flags.map flagDeduction).sum
  let ci := off.contactInfo
  let score := (100 : ℚ) - flagDeductions -
    (if !truthy ci.email then 15 else 0) -
    (if !truthy ci.phone then 10 else 0) -
    (if !truthy ci.website then 10 else 0)
  max 0 score

/-- A vote that counts as cast for the attendance score (`vote_value not
in ["not-voting", "not voting", "present", ""]`). -/
def isCastVote (v : Vote) : Bool :=
  !(toLowerStr v.vote == "not-voting" || toLowerStr v.vote == "not voting" ||
    toLowerStr v.vote == "present" || toLowerStr v.vote == "")

/-- `_calculate_attendance_score`: participation rate, 50.0 when no vote
data (or no votes) is present. -/
def calcAttendanceScore (vd : Option (List VoteRecord)) : ℚ :=
  match vd with
  | none => 50
  | some records =>
      if records.isEmpty then 50
      else
        let totalVotes := (records.map (fun r => r.votes.length)).sum
        let votesCast := (records.map (fun r => r.votes.countP isCastVote)).sum
        if totalVotes = 0 then 50
        else ((votesCast : ℚ) / (totalVotes : ℚ)) * 100

/-- `_calculate_donor_independence_score`: individual-contribution
percentage, blended 50/50 with (100 − influence score) when the influence
analysis is present; 50.0 without donation data. -/
def calcDonorIndependenceScore (dd : Option DonationsData)
    (ia : Option InfluenceAnalysis) : ℚ :=
  match dd with
  | none => 50
  | some d =>
      if d.summary.totalRaised = 0 then 50
      else
        let individualPct :=
          d.summary.individualContributions / d.summary.totalRaised * 100
        match ia with
        | some a => individualPct * (1 / 2) + (100 - a.influenceScore) * (1 / 2)
        | none => individualPct

/-- `_calculate_constituent_alignment_score`: documented stub, fixed 50. -/
def calcConstituentAlignmentScore : ℚ := 50

/-- One component entry of the score breakdown. -/
structure ScoreComponent where
  score : ℚ
  weight : ℤ
  weightedContribution : ℚ
  deriving DecidableEq, Repr

/-- The placeholder peer comparison. -/
structure PeerComparison where
  averageScore : ℤ
  rank : ℤ
  totalPeers : ℤ
  deriving DecidableEq, Repr

/-- Output of `calculate_accountability_score`. -/
structure AccountabilityScore where
  officialId : String
  overallScore : ℚ
  grade : String
  promiseKeeping : ScoreComponent
  transparency : ScoreComponent
  attendance : ScoreComponent
  donorIndependence : ScoreComponent
  constituentAlignment : ScoreComponent
  missedVotesPct : ℚ
  corporatePacPct : ℚ
  influenceScoreField : ℚ
  votesWithDistrict : ℚ
  trend : String
  peerComparison : PeerComparison
  deriving DecidableEq, Repr

/-- `_get_missed_votes_pct`. -/
def getMissedVotesPct (vd : Option (List VoteRecord)) : ℚ :=
  match vd with
  | none => 0
  | some records =>
      let totalVotes := (records.map (fun r => r.votes.length)).sum
      let missed := (records.map (fun r => r.votes.countP (fun v => !isCastVote v))).sum
      if totalVotes = 0 then 0
      else round1 ((missed : ℚ) / (totalVotes : ℚ) * 100)

/-- `_get_corporate_pac_pct`. -/
def getCorporatePacPct (dd : Option DonationsData) : ℚ :=
  match dd with
  | none => 0
  | some d =>
      if d.summary.totalRaised = 0 then 0
      else round1 (d.summary.pacContributions / d.summary.totalRaised * 100)

/-- The unrounded weighted overall score, in the source's summation
order. -/
def overallScoreRaw (off : OfficialData) (pa : Option PromiseAnalysis)
    (ia : Option InfluenceAnalysis) (vd : Option (List VoteRecord))
    (dd : Option DonationsData) (rf : Option RedFlagsReport) : ℚ :=
  calcPromiseKeepingScore pa * WEIGHTS_promise_keeping +
    calcTransparencyScore off rf * WEIGHTS_transparency +
    calcConstituentAlignmentScore * WEIGHTS_constituent_alignment +
    calcAttendanceScore vd * WEIGHTS_attendance +
    calcDonorIndependenceScore dd ia * WEIGHTS_donor_independence

/-- `calculate_accountability_score`.  The `weight` fields carry
`int(weight * 100)` (40, 20, 10, 10, 20); trend and peer comparison are
the source's static placeholders. -/
def calculateAccountabilityScore (officialId : String) (off : OfficialData)
    (pa : Option PromiseAnalysis) (ia : Option InfluenceAnalysis)
    (vd : Option (List VoteRecord)) (dd : Option DonationsData)
    (rf : Option RedFlagsReport) : AccountabilityScore :=
  let overall := round1 (overallScoreRaw off pa ia vd dd rf)
  { officialId := officialId
    overallScore := overall
    grade := getGrade overall
    promiseKeeping :=
      ⟨round1 (calcPromiseKeepingScore pa), 40,
        round1 (calcPromiseKeepingScore pa * WEIGHTS_promise_keeping)⟩
    transparency :=
      ⟨round1 (calcTransparencyScore off rf), 20,
        round1 (calcTransparencyScore off rf * WEIGHTS_transparency)⟩
    attendance :=
      ⟨round1 (calcAttendanceScore vd), 10,
        round1 (calcAttendanceScore vd * WEIGHTS_attendance)⟩
    donorIndependence :=
      ⟨round1 (calcDonorIndependenceScore dd ia), 10,
        round1 (calcDonorIndependenceScore dd ia * WEIGHTS_donor_independence)⟩
    constituentAlignment :=
      ⟨round1 calcConstituentAlignmentScore, 20,
        round1 (calcConstituentAlignmentScore * WEIGHTS_constituent_alignment)⟩
    missedVotesPct := getMissedVotesPct vd
    corporatePacPct := getCorporatePacPct dd
    influenceScoreField :=
      match ia with
      | some a => a.influenceScore
      | none => 0
    votesWithDistrict := 34
    trend := "stable"
    peerComparison := ⟨62, 142, 150⟩ }

/-- C5: the five component weights sum to exactly 1; the overall score is
the weighted sum of the five component scores rounded to one decimal; and
whenever every component score lies in [0,100], the overall score lies in
[0,100]. -/
theorem weights_sum_and_overall_bounds (oid : String) (off : OfficialData)
    (pa : Option PromiseAnalysis) (ia : Option InfluenceAnalysis)
    (vd : Option (List VoteRecord)) (dd : Option DonationsData)
    (rf : Option RedFlagsReport) :
    (WEIGHTS_promise_keeping + WEIGHTS_transparency +
      WEIGHTS_constituent_alignment + WEIGHTS_attendance +
      WEIGHTS_donor_independence = 1) ∧
    ((calculateAccountabilityScore oid off pa ia vd dd rf).overallScore =
      round1 (calcPromiseKeepingScore pa * WEIGHTS_promise_keeping +
        calcTransparencyScore off rf * WEIGHTS_transparency +
        calcConstituentAlignmentScore * WEIGHTS_constituent_alignment +
        calcAttendanceScore vd * WEIGHTS_attendance +
        calcDonorIndependenceScore dd ia * WEIGHTS_donor_independence)) ∧
    (0 ≤ calcPromiseKeepingScore pa → calcPromiseKeepingScore pa ≤ 100 →
     0 ≤ calcTransparencyScore off rf → calcTransparencyScore off rf ≤ 100 →
     0 ≤ calcAttendanceScore vd → calcAttendanceScore vd ≤ 100 →
     0 ≤ calcDonorIndependenceScore dd ia →
     calcDonorIndependenceScore dd ia ≤ 100 →
     0 ≤ (calculateAccountabilityScore oid off pa ia vd dd rf).overallScore ∧
       (calculateAccountabilityScore oid off pa ia vd dd rf).overallScore ≤ 100) := by
  refine ⟨by norm_num [WEIGHTS_promise_keeping, WEIGHTS_transparency,
      WEIGHTS_constituent_alignment, WEIGHTS_attendance,
      WEIGHTS_donor_independence], rfl, ?_⟩
  intro h1 h2 h3 h4 h5 h6 h7 h8
  have hca : calcConstituentAlignmentScore = 50 := rfl
  have hraw0 : 0 ≤ overallScoreRaw off pa ia vd dd rf := by
    unfold overallScoreRaw
    rw [hca]
    unfold WEIGHTS_promise_keeping WEIGHTS_transparency
      WEIGHTS_constituent_alignment WEIGHTS_attendance WEIGHTS_donor_independence
    linarith
  have hraw100 : overallScoreRaw off pa ia vd dd rf ≤ 100 := by
    unfold overallScoreRaw
    rw [hca]
    unfold WEIGHTS_promise_keeping WEIGHTS_transparency
      WEIGHTS_constituent_alignment WEIGHTS_attendance WEIGHTS_donor_independence
    linarith
  exact round1_bounds_100 hraw0 hraw100

/-- An official record with complete contact information. -/
def offFull : OfficialData := ⟨⟨some "rep@example.gov", some "555-0100", some "example.gov"⟩⟩

/-- Witness for the weights/overall theorem: with no upstream data and a
fully transparent profile the components are 50, 100, 50, 50, 50, and the
overall score lies in [0,100]. -/
theorem weights_sum_and_overall_bounds_witness :
    0 ≤ (calculateAccountabilityScore "o" offFull none none none none none).overallScore ∧
    (calculateAccountabilityScore "o" offFull none none none none none).overallScore ≤ 100 := by
  have hts : calcTransparencyScore offFull none = 100 := by
    have he : truthy (some "rep@example.gov") = true := by decide
    have hp : truthy (some "555-0100") = true := by decide
    have hw : truthy (some "example.gov") = true := by decide
    simp [calcTransparencyScore, offFull, he, hp, hw]
  exact (weights_sum_and_overall_bounds "o" offFull none none none none none).2.2
    (by norm_num [calcPromiseKeepingScore])
    (by norm_num [calcPromiseKeepingScore])
    (by rw [hts]; norm_num) (by rw [hts])
    (by norm_num [calcAttendanceScore])
    (by norm_num [calcAttendanceScore])
    (by norm_num [calcDonorIndependenceScore])
    (by norm_num [calcDonorIndependenceScore])

/-- C8: absent optional inputs are never fatal and substitute neutral
defaults — 50.0 for the promise-keeping, attendance and donor-independence
components when their data is missing; detectors with missing inputs
contribute no flags (with every optional input absent the report holds
exactly the transparency flags); and removing one upstream analysis
changes only its dependent component, never the others. -/
theorem missing_inputs_neutral_defaults :
    (∀ ia, calcPromiseKeepingScore none = 50 ∧ calcAttendanceScore none = 50 ∧
      calcDonorIndependenceScore none ia = 50) ∧
    (∀ (ids : ℕ → String) (oid : String) (off : OfficialData),
      detectionFlags off none none none none none = detectTransparencyFlags off ∧
      (detectRedFlags ids oid off none none none none none).flags =
        keySort (fun f => severityRank f.severity)
          (attachIds ids (detectTransparencyFlags off)) ∧
      (detectRedFlags ids oid off none none none none none).totalRedFlags =
        (detectTransparencyFlags off).length) ∧
    (∀ (oid : String) (off : OfficialData) (p : PromiseAnalysis)
        (ia : Option InfluenceAnalysis) (vd : Option (List VoteRecord))
        (dd : Option DonationsData) (rf : Option RedFlagsReport),
      (calculateAccountabilityScore oid off none ia vd dd rf).transparency =
        (calculateAccountabilityScore oid off (some p) ia vd dd rf).transparency ∧
      (calculateAccountabilityScore oid off none ia vd dd rf).attendance =
        (calculateAccountabilityScore oid off (some p) ia vd dd rf).attendance ∧
      (calculateAccountabilityScore oid off none ia vd dd rf).donorIndependence =
        (calculateAccountabilityScore oid off (some p) ia vd dd rf).donorIndependence ∧
      (calculateAccountabilityScore oid off none ia vd dd rf).constituentAlignment =
        (calculateAccountabilityScore oid off (some p) ia vd dd rf).constituentAlignment) ∧
    (∀ (oid : String) (off : OfficialData),
      (calculateAccountabilityScore oid off none none none none none).promiseKeeping.score = 50 ∧
      (calculateAccountabilityScore oid off none none none none none).attendance.score = 50 ∧
      (calculateAccountabilityScore oid off none none none none none).donorIndependence.score = 50) := by
  have h50 : round1 ((50 : ℚ)) = 50 := by
    have h := round1_intCast 50
    push_cast at h
    exact h
  refine ⟨fun ia => ⟨rfl, rfl, rfl⟩, ?_, ?_, ?_⟩
  · intro ids oid off
    have hd : detectionFlags off none none none none none =
        detectTransparencyFlags off := by
      simp [detectionFlags]
    refine ⟨hd, ?_, ?_⟩
    · show keySort (fun f => severityRank f.severity)
        (attachIds ids (detectionFlags off none none none none none)) = _
      rw [hd]
    · show (attachIds ids (detectionFlags off none none none none none)).length = _
      rw [hd, attachIds_length]
  · intro oid off p ia vd dd rf
    exact ⟨rfl, rfl, rfl, rfl⟩
  · intro oid off
    refine ⟨?_, ?_, ?_⟩
    · show round1 (calcPromiseKeepingScore none) = 50
      exact h50
    · show round1 (calcAttendanceScore none) = 50
      exact h50
    · show round1 (calcDonorIndependenceScore none none) = 50
      exact h50

/-- C9: a supplied promise snapshot with zero promises yields a
promise-keeping score of 0, and the aggregator uses that 0 as the
component score; the 50.0 neutral default applies only when the promise
analysis itself is absent, so a present-but-empty promise list scores
strictly lower than no promise data at all. -/
theorem empty_promise_list_scores_zero (oid name : String)
    (votesData : List VoteRecord) :
    (analyzePromiseKeeping oid name ⟨[]⟩ votesData).summary.promiseKeepingScore = 0 ∧
    calcPromiseKeepingScore (some (analyzePromiseKeeping oid name ⟨[]⟩ votesData)) = 0 ∧
    calcPromiseKeepingScore none = 50 ∧
    calcPromiseKeepingScore (some (analyzePromiseKeeping oid name ⟨[]⟩ votesData)) <
      calcPromiseKeepingScore none := by
  refine ⟨rfl, rfl, rfl, ?_⟩
  show (0 : ℚ) < 50
  norm_num

/-- Blank out the id field of a red flag. -/
def eraseFlagId (f : RedFlag) : RedFlag := { f with id := "" }

/-- A red-flags report with all flag ids blanked out. -/
def eraseIds (r : RedFlagsReport) : RedFlagsReport :=
  { r with flags := r.flags.map eraseFlagId }

theorem eraseIds_detectRedFlags (ids : ℕ → String) (oid : String)
    (off : OfficialData) (pa : Option PromiseAnalysis)
    (ia : Option InfluenceAnalysis) (vd : Option (List VoteRecord))
    (dd : Option DonationsData) (sd : Option StocksData) :
    eraseIds (detectRedFlags ids oid off pa ia vd dd sd) =
      { officialId := oid
        totalRedFlags := (detectionFlags off pa ia vd dd sd).length
        bySeverityCritical := (detectionFlags off pa ia vd dd sd).countP
          (fun f => f.severity == "critical")
        bySeverityHigh := (detectionFlags off pa ia vd dd sd).countP
          (fun f => f.severity == "high")
        bySeverityMedium := (detectionFlags off pa ia vd dd sd).countP
          (fun f => f.severity == "medium")
        bySeverityLow := (detectionFlags off pa ia vd dd sd).countP
          (fun f => f.severity == "low")
        flags := keySort (fun f => severityRank f.severity)
          ((detectionFlags off pa ia vd dd sd).map eraseFlagId) } := by
  unfold eraseIds detectRedFlags
  rw [RedFlagsReport.mk.injEq]
  refine ⟨rfl, attachIds_length ids _, ?_, ?_, ?_, ?_, ?_⟩
  · exact countP_eq_of_severity_map (fun s => s == "critical") _ _
      (attachIds_severity_map ids _)
  · exact countP_eq_of_severity_map (fun s => s == "high") _ _
      (attachIds_severity_map ids _)
  · exact countP_eq_of_severity_map (fun s => s == "medium") _ _
      (attachIds_severity_map ids _)
  · exact countP_eq_of_severity_map (fun s => s == "low") _ _
      (attachIds_severity_map ids _)
  · rw [← keySort_map_comm eraseFlagId (fun f => severityRank f.severity)
      (fun a => rfl) (attachIds ids (detectionFlags off pa ia vd dd sd))]
    have := attachIds_map_erase ids (detectionFlags off pa ia vd dd sd)
    show keySort _ ((attachIds ids (detectionFlags off pa ia vd dd sd)).map eraseFlagId) = _
    rw [show (attachIds ids (detectionFlags off pa ia vd dd sd)).map eraseFlagId =
      (detectionFlags off pa ia vd dd sd).map eraseFlagId from this]

/-- C1 (amended): the pipeline is deterministic except for the red-flag
id fields, which come from a fresh uuid source on each run.  With id
fields erased, two runs on the identical input snapshot produce identical
red-flag reports, and the downstream accountability score (which never
reads the id fields) is identical across the two runs. -/
theorem pipeline_deterministic_up_to_ids (ids1 ids2 : ℕ → String)
    (oid : String) (off : OfficialData) (pa : Option PromiseAnalysis)
    (ia : Option InfluenceAnalysis) (vd : Option (List VoteRecord))
    (dd : Option DonationsData) (sd : Option StocksData) :
    eraseIds (detectRedFlags ids1 oid off pa ia vd dd sd) =
      eraseIds (detectRedFlags ids2 oid off pa ia vd dd sd) ∧
    calculateAccountabilityScore oid off pa ia vd dd
        (some (detectRedFlags ids1 oid off pa ia vd dd sd)) =
      calculateAccountabilityScore oid off pa ia vd dd
        (some (detectRedFlags ids2 oid off pa ia vd dd sd)) := by
  constructor
  · rw [eraseIds_detectRedFlags, eraseIds_detectRedFlags]
  · have hts : calcTransparencyScore off
        (some (detectRedFlags ids1 oid off pa ia vd dd sd)) =
        calcTransparencyScore off
          (some (detectRedFlags ids2 oid off pa ia vd dd sd)) := by
      unfold calcTransparencyScore
      have hded : ∀ ids : ℕ → String,
          ((detectRedFlags ids oid off pa ia vd dd sd).flags.map flagDeduction).sum =
            (((detectRedFlags ids oid off pa ia vd dd sd).flags.map eraseFlagId).map
              flagDeduction).sum := by
        intro ids
        rw [List.map_map]
        rfl
      have hflagseq :
          (detectRedFlags ids1 oid off pa ia vd dd sd).flags.map eraseFlagId =
          (detectRedFlags ids2 oid off pa ia vd dd sd).flags.map eraseFlagId := by
        have h1 := congrArg RedFlagsReport.flags
          (eraseIds_detectRedFlags ids1 oid off pa ia vd dd sd)
        have h2 := congrArg RedFlagsReport.flags
          (eraseIds_detectRedFlags ids2 oid off pa ia vd dd sd)
        simp only [eraseIds] at h1 h2
        rw [h1, h2]
      simp only []
      rw [hded ids1, hded ids2, hflagseq]
    unfold calculateAccountabilityScore overallScoreRaw
    rw [hts]
